import Mathlib

/-!
# Verification of the bioSim annual-cycle engine

A shallow embedding of the simulation core of the `bioSim-2023` repository:

* `src/src/biosim/ecosystem/unit_area.py` — the `UnitArea` cell class
  (insertion primitives, procreation, feeding, predation, migration,
  aging, weight loss, death);
* `src/src/biosim/simulation.py` — the `BioSim` driver (`simulate`,
  its per-phase static helpers, `_populate_island`).

The animal class hierarchy (`fauna.py`), the terrain catalogue
(`geography.py`) and the island wrapper are not part of the sources; the
per-animal transition functions are therefore modelled from the written
specification and clearly marked as such.  Machine reals are modelled by
`ℚ`; every random draw of the shared generator is an oracle value taken
from an explicit stream, consumed in program order.
-/

attribute [local semireducible] Rat.add Rat.mul Rat.sub Rat.inv

/-- `min` on rationals, written out so that it evaluates by kernel
reduction (used where the source takes a minimum). -/
def minQ (a b : ℚ) : ℚ := if a ≤ b then a else b

/-- Species tag of an animal: Herbivore is the prey species, Carnivore the
predator species. -/
inductive Species where
  | herbivore
  | carnivore
deriving DecidableEq, Repr

/-- Modelled from the spec: per-animal state held by `fauna.py` (not under
`src/`): `age`, strictly positive `weight` while alive, and the transient
per-year `has_moved` flag.  `id` models Python object identity (animal
lists are filtered by identity, not by structural equality); `fitness` is
derived, not stored (see `Model.fit`). -/
structure Fauna where
  id : Nat
  species : Species
  age : Nat
  weight : ℚ
  has_moved : Bool
deriving DecidableEq, Repr

/-- Modelled from the spec: a species parameter set, shared by all
individuals of the species and overridable by the operator.
`DeltaPhiMax` is meaningful for the predator species only. -/
structure FaunaParams where
  w_birth : ℚ
  sigma_birth : ℚ
  beta : ℚ
  eta : ℚ
  a_half : ℚ
  phi_age : ℚ
  w_half : ℚ
  phi_weight : ℚ
  mu : ℚ
  gamma : ℚ
  zeta : ℚ
  xi : ℚ
  omega : ℚ
  F : ℚ
  DeltaPhiMax : ℚ
deriving DecidableEq, Repr

/-- Terrain kinds of `geography.py` (not under `src/`): the four map codes
W, D, L, H. -/
inductive GeoKind where
  | Water
  | Desert
  | Lowland
  | Highland
deriving DecidableEq, Repr

/-- Terrain passability: animals may never occupy Water. -/
def GeoKind.can_animals_move_here : GeoKind → Bool
  | .Water => false
  | _ => true

/-- Border eligibility: only Water may lie on the island border. -/
def GeoKind.can_be_border : GeoKind → Bool
  | .Water => true
  | _ => false

/-- Modelled from the spec: the shared, seeded pseudo-random generator.
`vals` is the stream of uniform draws (and, where a newborn weight is
sampled, the sampled weight), consumed in program order through the
cursor `idx`; `perms` yields the index order produced by each call to
`random.shuffle`; `nextId` supplies fresh identities for newly created
animal objects. -/
structure Rng where
  vals : Nat → ℚ
  perms : Nat → Nat → List Nat
  idx : Nat
  nextId : Nat

/-- Consume one draw from the shared stream. -/
def Rng.draw (r : Rng) : ℚ × Rng :=
  (r.vals r.idx, { r with idx := r.idx + 1 })

/-- Consume one shuffle of a list of length `n`, yielding the shuffled
index order. -/
def Rng.shuffle (r : Rng) (n : Nat) : List Nat × Rng :=
  (r.perms r.idx n, { r with idx := r.idx + 1 })

/-- Obtain a fresh object identity. -/
def Rng.fresh (r : Rng) : Nat × Rng :=
  (r.nextId, { r with nextId := r.nextId + 1 })

/-- Modelled from the spec: the data of `fauna.py` and `geography.py`
that the cell and driver code consumes.  `P` gives each species its
parameter set; `fit` is the derived fitness — the spec's two-sided
logistic of age and weight with species parameters; being transcendental
it is kept as an abstract function of exactly the data the spec says
determine it (species, age, weight).  `f_max` is each terrain's annual
fodder ceiling (`geo.params.f_max`). -/
structure Model where
  P : Species → FaunaParams
  fit : Species → Nat → ℚ → ℚ
  f_max : GeoKind → ℚ

/-- Fitness of an animal in its current state. -/
def fitness (M : Model) (a : Fauna) : ℚ :=
  M.fit a.species a.age a.weight

/-- `Fauna.get_older` — spec: `age += 1`, unconditional. -/
def getOlder (a : Fauna) : Fauna :=
  { a with age := a.age + 1 }

/-- `Fauna.lose_weight` — spec: `weight *= (1 - eta)`. -/
def loseWeight (M : Model) (a : Fauna) : Fauna :=
  { a with weight := a.weight * (1 - (M.P a.species).eta) }

/-- Modelled from the spec: `feed_and_gain_weight` (prey): consume
`intake = min(F, available)`, gain `beta * intake` weight, return the
remaining fodder. -/
def feedAndGainWeight (M : Model) (a : Fauna) (available : ℚ) : Fauna × ℚ :=
  let intake := minQ (M.P a.species).F available
  ({ a with weight := a.weight + (M.P a.species).beta * intake }, available - intake)

/-- Modelled from the spec: `maybe_die`: certain death at `weight ≤ 0`,
otherwise death with probability `omega * (1 - fitness)` against one
uniform draw.  Returns whether the animal died. -/
def maybeDie (M : Model) (a : Fauna) (rng : Rng) : Bool × Rng :=
  if a.weight ≤ 0 then (true, rng)
  else
    let (u, r1) := rng.draw
    (u < (M.P a.species).omega * (1 - fitness M a), r1)

/-- Modelled from the spec: `procreate(n)` with `n` the same-species
count snapshot: birth probability `min(1, gamma * fitness * (n - 1))`,
zero for `n < 2`; on a triggered birth the newborn weight is sampled
(the sampled value is the next oracle draw) and the birth materialises
only if the parent weighs at least `xi * newborn_weight`, the parent
losing that amount.  Returns the optional newborn and the updated
parent. -/
def procreate (M : Model) (a : Fauna) (n : Nat) (rng : Rng) :
    Option Fauna × Fauna × Rng :=
  let p : ℚ :=
    if n < 2 then 0
    else minQ 1 ((M.P a.species).gamma * fitness M a * ((n : ℚ) - 1))
  let (u, r1) := rng.draw
  if u < p then
    let (w, r2) := r1.draw
    if (M.P a.species).xi * w ≤ a.weight then
      let (i, r3) := r2.fresh
      (some { id := i, species := a.species, age := 0, weight := w, has_moved := false },
       { a with weight := a.weight - (M.P a.species).xi * w }, r3)
    else (none, a, r2)
  else (none, a, r1)

/-- Modelled from the spec: `will_you_move`: an animal that has already
moved this year never attempts migration; otherwise it attempts with
probability `mu * fitness` against one uniform draw. -/
def willYouMove (M : Model) (a : Fauna) (rng : Rng) : Bool × Rng :=
  if a.has_moved then (false, rng)
  else
    let (u, r1) := rng.draw
    (u < (M.P a.species).mu * fitness M a, r1)

/-- Modelled from the spec: `where_will_you_move`: one of the four
orthogonal neighbour offsets `(delta row, delta col)`, chosen uniformly
(one draw, quartile-partitioned). -/
def whereWillYouMove (rng : Rng) : (Int × Int) × Rng :=
  let (u, r1) := rng.draw
  (if u < 1/4 then (-1, 0)
   else if u < 1/2 then (1, 0)
   else if u < 3/4 then (0, -1)
   else (0, 1), r1)

/-- Modelled from the spec: the predator hunt
(`feed_on_herbivores_and_gain_weight`): iterate the candidate prey in
the order given, stopping once the appetite budget is exhausted; per
candidate the kill probability is `0` if `delta_phi ≤ 0`, `1` if
`DeltaPhiMax ≤ 0`, else `min(1, delta_phi / DeltaPhiMax)`, decided
against one uniform draw; a kill feeds the predator
`min(prey.weight, remaining appetite)`, its weight growing by `beta`
times that amount.  Accumulates the list of prey killed. -/
def huntLoop (M : Model) :
    List Fauna → Fauna → ℚ → Rng → List Fauna → List Fauna × Fauna × Rng
  | [], c, _, r, eaten => (eaten, c, r)
  | h :: hs, c, appetite, r, eaten =>
    if appetite ≤ 0 then (eaten, c, r)
    else
      let dphi := fitness M c - fitness M h
      let dmax := (M.P c.species).DeltaPhiMax
      let p : ℚ := if dphi ≤ 0 then 0 else if dmax ≤ 0 then 1 else minQ 1 (dphi / dmax)
      let (u, r1) := r.draw
      if u < p then
        let consumed := minQ h.weight appetite
        huntLoop M hs
          { c with weight := c.weight + (M.P c.species).beta * consumed }
          (appetite - consumed) r1 (eaten ++ [h])
      else huntLoop M hs c appetite r1 eaten

/-- The full hunt of one predator over a candidate prey list, appetite
initialised to the species parameter `F`. -/
def feedOnHerbivores (M : Model) (c : Fauna) (herbs : List Fauna) (rng : Rng) :
    List Fauna × Fauna × Rng :=
  huntLoop M herbs c (M.P c.species).F rng []

/-- A grid cell: `UnitArea.__init__` state (`unit_area.py`, lines 19-43):
location (1-indexed coordinates), terrain, and the two animal lists. -/
structure UnitArea where
  loc : Nat × Nat
  geo : GeoKind
  herbs : List Fauna
  carns : List Fauna
deriving DecidableEq, Repr

/-- `UnitArea.add_herb` (`unit_area.py`, lines 66-79): a `None` argument
returns silently; otherwise an impassable cell raises; otherwise the
herbivore is appended. -/
def addHerb (u : UnitArea) (h : Option Fauna) : Except String UnitArea :=
  match h with
  | none => .ok u
  | some h =>
    if !u.geo.can_animals_move_here then .error "No animals allowed here"
    else .ok { u with herbs := u.herbs ++ [h] }

/-- `UnitArea.add_herbs` (lines 81-93): `None` returns silently; an
impassable cell raises (also for an empty list); otherwise the list is
appended. -/
def addHerbs (u : UnitArea) (hs : Option (List Fauna)) : Except String UnitArea :=
  match hs with
  | none => .ok u
  | some hs =>
    if !u.geo.can_animals_move_here then .error "No animals allowed here"
    else .ok { u with herbs := u.herbs ++ hs }

/-- `UnitArea.add_carn` (lines 95-108): as `add_herb`, for the predator
list. -/
def addCarn (u : UnitArea) (c : Option Fauna) : Except String UnitArea :=
  match c with
  | none => .ok u
  | some c =>
    if !u.geo.can_animals_move_here then .error "No animals allowed here"
    else .ok { u with carns := u.carns ++ [c] }

/-- `UnitArea.add_carns` (lines 110-123): as `add_herbs`, for the
predator list. -/
def addCarns (u : UnitArea) (cs : Option (List Fauna)) : Except String UnitArea :=
  match cs with
  | none => .ok u
  | some cs =>
    if !u.geo.can_animals_move_here then .error "No animals allowed here"
    else .ok { u with carns := u.carns ++ cs }

/-- `UnitArea._make_babies_of` (lines 262-270), the imperative loop:
`no_animals` is computed once before the loop; each animal of the list is
offered `procreate(no_animals)`; newborns are collected in an accumulator
(`babies`); parents are updated in place, keeping their positions.
Returns (parents after the pass, babies, rng). -/
def makeBabiesOfLoop (M : Model) (n : Nat) :
    List Fauna → List Fauna → List Fauna → Rng → List Fauna × List Fauna × Rng
  | [], parents, babies, r => (parents, babies, r)
  | a :: rest, parents, babies, r =>
    let (b, a2, r2) := procreate M a n r
    makeBabiesOfLoop M n rest (parents ++ [a2])
      (babies ++ (match b with | none => [] | some x => [x])) r2

/-- `UnitArea._make_babies_of` entry: `no_animals = len(animals)`. -/
def makeBabiesOf (M : Model) (animals : List Fauna) (rng : Rng) :
    List Fauna × List Fauna × Rng :=
  makeBabiesOfLoop M animals.length animals [] [] rng

/-- `UnitArea.make_babies` (lines 125-135): run the pass over the
herbivores and append the herbivore babies via `add_herbs` (which raises
on an impassable cell, even for an empty babies list), then likewise for
the carnivores via `add_carns`. -/
def makeBabies (M : Model) (u : UnitArea) (rng : Rng) :
    Except String (UnitArea × Rng) := do
  let (hs, hb, r1) := makeBabiesOf M u.herbs rng
  let u1 ← addHerbs { u with herbs := hs } (some hb)
  let (cs, cb, r2) := makeBabiesOf M u1.carns r1
  let u2 ← addCarns { u1 with carns := cs } (some cb)
  pure (u2, r2)

/-- The feeding loop shared verbatim by `UnitArea._herbivores_eat`
(lines 207-221) and `BioSim._eat` (`simulation.py`, lines 164-172): walk
the shuffled index order; before each feeding, stop for good if the
remaining fodder is `≤ 0`; otherwise the indexed herbivore feeds and is
updated at its original position (the list order is never changed).  The
shuffle only ever produces in-range indices; an out-of-range index is a
no-op here. -/
def herbEatLoop (M : Model) : List Nat → ℚ → List Fauna → ℚ × List Fauna
  | [], fodder, hs => (fodder, hs)
  | i :: rest, fodder, hs =>
    if fodder ≤ 0 then (fodder, hs)
    else
      match hs.get? i with
      | none => herbEatLoop M rest fodder hs
      | some h =>
        let (h2, rem) := feedAndGainWeight M h fodder
        herbEatLoop M rest rem (hs.set i h2)

/-- `UnitArea._herbivores_eat` (lines 207-221): the fodder pool is the
local variable `remaining_fodder`, (re)initialised to the terrain's
`f_max` on every call; the feeding order is a shuffle of
`range(len(herbs))`. -/
def herbivoresEat (M : Model) (u : UnitArea) (rng : Rng) : UnitArea × Rng :=
  let (perm, r1) := rng.shuffle u.herbs.length
  let (_, hs) := herbEatLoop M perm (M.f_max u.geo) u.herbs
  ({ u with herbs := hs }, r1)

/-- Stable insertion of `a` into a list ordered by ascending `key`
(before the first element of key not smaller), modelling Python's stable
`list.sort(key=...)`. -/
def insertOn (key : α → ℚ) (a : α) : List α → List α
  | [] => [a]
  | b :: bs => if key a ≤ key b then a :: b :: bs else b :: insertOn key a bs

/-- Stable sort by ascending `key`, modelling `list.sort(key=...)`. -/
def sortOn (key : α → ℚ) : List α → List α
  | [] => []
  | a :: rest => insertOn key a (sortOn key rest)

/-- One predator step of `UnitArea._carnivores_eat` (lines 231-235),
iterated over the sorted predator list: the predator hunts the current
prey list; the prey it ate are filtered out of the stored prey list (by
object identity) before the next predator hunts; the updated predator
keeps its position.  (The process-wide `Herbivore.decrease_count`
bookkeeping is reporting-only and not modelled.) -/
def carnsEatLoop (M : Model) :
    List Fauna → List Fauna → Rng → List Fauna → List Fauna × List Fauna × Rng
  | [], hs, r, done => (done, hs, r)
  | c :: cs, hs, r, done =>
    let (eaten, c2, r2) := feedOnHerbivores M c hs r
    let hs2 := hs.filter (fun h => !(eaten.any (fun e => e.id == h.id)))
    carnsEatLoop M cs hs2 r2 (done ++ [c2])

/-- `UnitArea._carnivores_eat` (lines 223-235): sort the stored predator
list in place by descending fitness (`key = -carn.fitness`) and the
stored prey list by ascending fitness, then run the hunting loop. -/
def carnivoresEat (M : Model) (u : UnitArea) (rng : Rng) : UnitArea × Rng :=
  let cs := sortOn (fun c => -(fitness M c)) u.carns
  let hs := sortOn (fun h => fitness M h) u.herbs
  let (cs2, hs2, r2) := carnsEatLoop M cs hs rng []
  ({ u with carns := cs2, herbs := hs2 }, r2)

/-- `UnitArea.eat` (lines 137-140): herbivores first, then carnivores. -/
def unitEat (M : Model) (u : UnitArea) (rng : Rng) : UnitArea × Rng :=
  let (u1, r1) := herbivoresEat M u rng
  carnivoresEat M u1 r1

/-- `UnitArea.grow_old` (lines 166-173): age both species. -/
def growOld (u : UnitArea) : UnitArea :=
  { u with herbs := u.herbs.map getOlder, carns := u.carns.map getOlder }

/-- `UnitArea.get_thin` (lines 175-181): weight loss for both species. -/
def getThin (M : Model) (u : UnitArea) : UnitArea :=
  { u with herbs := u.herbs.map (loseWeight M), carns := u.carns.map (loseWeight M) }

/-- The list comprehension `[a for a in animals if not a.maybe_die()]`
of `UnitArea.maybe_die` / `BioSim._meet_your_maker`: death draws are
consumed left to right and the survivors keep their order. -/
def maybeDieFilter (M : Model) : List Fauna → Rng → List Fauna × Rng
  | [], r => ([], r)
  | a :: rest, r =>
    let (d, r1) := maybeDie M a r
    let (xs, r2) := maybeDieFilter M rest r1
    (if d then xs else a :: xs, r2)

/-- `UnitArea.maybe_die` (lines 183-189): death phase for both species,
herbivores first. -/
def unitMaybeDie (M : Model) (u : UnitArea) (rng : Rng) : UnitArea × Rng :=
  let (hs, r1) := maybeDieFilter M u.herbs rng
  let (cs, r2) := maybeDieFilter M u.carns r1
  ({ u with herbs := hs, carns := cs }, r2)

/-- `UnitArea.reset_animal_move_flag` (lines 197-205): reset `has_moved`
of every animal in the cell to `False`. -/
def resetAnimalMoveFlag (u : UnitArea) : UnitArea :=
  { u with herbs := u.herbs.map (fun a => { a with has_moved := false }),
           carns := u.carns.map (fun a => { a with has_moved := false }) }

/-- The island grid: the 2-D cell array `cells`. -/
abbrev Grid := List (List UnitArea)

/-- Python list indexing semantics: a negative index wraps from the end;
an index outside `[-len, len)` raises `IndexError` (modelled as `none`).
Returns the resolved non-negative index. -/
def pyIndex (len : Nat) (i : Int) : Option Nat :=
  if 0 ≤ i ∧ i < (len : Int) then some i.toNat
  else if -(len : Int) ≤ i ∧ i < 0 then some (i + len).toNat
  else none

/-- Resolve `cells[r][c]` by Python indexing, returning the resolved
non-negative position. -/
def pyResolve (g : Grid) (r c : Int) : Option (Nat × Nat) :=
  match pyIndex g.length r with
  | none => none
  | some ri =>
    match g.get? ri with
    | none => none
    | some row =>
      match pyIndex row.length c with
      | none => none
      | some ci => some (ri, ci)

/-- Plain (non-negative) grid lookup. -/
def getCell (g : Grid) (r c : Nat) : Option UnitArea :=
  (g.get? r).bind (fun row => row.get? c)

/-- Replace the element at position `n`, leaving the list unchanged when
`n` is out of range. -/
def listModify (f : α → α) : Nat → List α → List α
  | _, [] => []
  | 0, a :: rest => f a :: rest
  | n + 1, a :: rest => a :: listModify f n rest

/-- Update the cell at `(r, c)` of the grid. -/
def modifyCell (g : Grid) (r c : Nat) (f : UnitArea → UnitArea) : Grid :=
  listModify (fun row => listModify f c row) r g

/-- `UnitArea._migrate_to` (lines 272-298): consult the animal's
migration decision; when a move is proposed, resolve
`cells[row + delta_row][col + delta_col]` directly — there is no bounds
check, so a negative index wraps to the far edge and an index beyond the
extent raises `IndexError` — and return the destination only if its
terrain is passable. -/
def migrateTo (M : Model) (a : Fauna) (row col : Nat) (cells : Grid) (rng : Rng) :
    Except String (Option (Nat × Nat) × Rng) :=
  let (will, r1) := willYouMove M a rng
  if !will then .ok (none, r1)
  else
    let (off, r2) := whereWillYouMove r1
    match pyResolve cells ((row : Int) + off.1) ((col : Int) + off.2) with
    | none => .error "IndexError: list index out of range"
    | some pos =>
      match getCell cells pos.1 pos.2 with
      | none => .error "IndexError: list index out of range"
      | some dest =>
        .ok (if dest.geo.can_animals_move_here then some pos else none, r2)

/-- Select one species list of a cell — `wander_away` runs the same loop
once for the herbivores (`true`) and once for the carnivores
(`false`). -/
def getAnimals (isHerb : Bool) (u : UnitArea) : List Fauna :=
  if isHerb then u.herbs else u.carns

/-- Write back one species list of a cell. -/
def setAnimals (isHerb : Bool) (u : UnitArea) (l : List Fauna) : UnitArea :=
  if isHerb then { u with herbs := l } else { u with carns := l }

/-- The species-appropriate insertion primitive used by `wander_away`
(`move_to.add_herb` / `move_to.add_carn`). -/
def addAnimal (isHerb : Bool) (u : UnitArea) (a : Option Fauna) :
    Except String UnitArea :=
  if isHerb then addHerb u a else addCarn u a

/-- Insert an animal into the cell at `(r, c)` of the grid, propagating
the insertion primitive's error. -/
def addAnimalAt (g : Grid) (r c : Nat) (isHerb : Bool) (a : Fauna) :
    Except String Grid :=
  match getCell g r c with
  | none => .error "IndexError: list index out of range"
  | some u =>
    match addAnimal isHerb u (some a) with
    | .error e => .error e
    | .ok u2 => .ok (modifyCell g r c (fun _ => u2))

/-- The per-animal loop body of `UnitArea.wander_away` (lines 146-153 and
156-163): each mover is appended to its destination cell first and its
`has_moved` flag set; removal from the source list is deferred — the
loop only records the mover (`to_remove`), and the source list is
filtered once after the loop.  Returns the grid, rng and recorded mover
identities. -/
def wanderLoop (M : Model) (isHerb : Bool) (row col : Nat) :
    List Fauna → Grid → Rng → List Nat → Except String (Grid × Rng × List Nat)
  | [], g, r, ids => .ok (g, r, ids)
  | a :: rest, g, r, ids =>
    match migrateTo M a row col g r with
    | .error e => .error e
    | .ok (none, r1) => wanderLoop M isHerb row col rest g r1 ids
    | .ok (some pos, r1) =>
      match addAnimalAt g pos.1 pos.2 isHerb { a with has_moved := true } with
      | .error e => .error e
      | .ok g1 => wanderLoop M isHerb row col rest g1 r1 (ids ++ [a.id])

/-- One species pass of `UnitArea.wander_away`: loop over the species
list of the cell at `(row, col)`, then filter the recorded movers out of
the source list in one batch
(`self._herbs = [h for h in self._herbs if h not in to_remove]`). -/
def wanderPass (M : Model) (isHerb : Bool) (row col : Nat) (g : Grid) (rng : Rng) :
    Except String (Grid × Rng) :=
  match getCell g row col with
  | none => .ok (g, rng)
  | some u =>
    match wanderLoop M isHerb row col (getAnimals isHerb u) g rng [] with
    | .error e => .error e
    | .ok (g1, r1, ids) =>
      .ok (modifyCell g1 row col
             (fun u2 => setAnimals isHerb u2
               ((getAnimals isHerb u2).filter (fun a => !(ids.contains a.id)))),
           r1)

/-- `UnitArea.wander_away` (lines 142-164): the herbivore pass followed
by the carnivore pass. -/
def wanderAway (M : Model) (row col : Nat) (g : Grid) (rng : Rng) :
    Except String (Grid × Rng) := do
  let (g1, r1) ← wanderPass M true row col g rng
  wanderPass M false row col g1 r1

/-- `BioSim._make_babies` (`simulation.py`, lines 153-162): the driver's
own procreation helper — herbivores only; `no_herbs` is snapshotted
before the loop, and the babies are added only when the collected list
is nonempty (`if babies: cell.add_herbs(babies)`). -/
def simMakeBabies (M : Model) (u : UnitArea) (rng : Rng) :
    Except String (UnitArea × Rng) :=
  let (parents, babies, r1) := makeBabiesOf M u.herbs rng
  let u1 := { u with herbs := parents }
  if babies.isEmpty then .ok (u1, r1)
  else
    match addHerbs u1 (some babies) with
    | .error e => .error e
    | .ok u2 => .ok (u2, r1)

/-- `BioSim._eat` (`simulation.py`, lines 164-172): verbatim the same
feeding loop as `UnitArea._herbivores_eat`. -/
def simEat (M : Model) (u : UnitArea) (rng : Rng) : UnitArea × Rng :=
  herbivoresEat M u rng

/-- `BioSim._grow_old` (lines 174-176): ages the herbivores only. -/
def simGrowOld (u : UnitArea) : UnitArea :=
  { u with herbs := u.herbs.map getOlder }

/-- `BioSim._get_thin` (lines 178-180): weight loss for the herbivores
only. -/
def simGetThin (M : Model) (u : UnitArea) : UnitArea :=
  { u with herbs := u.herbs.map (loseWeight M) }

/-- `BioSim._meet_your_maker` (lines 182-184): death filter over the
herbivores only. -/
def simMeetYourMaker (M : Model) (u : UnitArea) (rng : Rng) : UnitArea × Rng :=
  let (hs, r1) := maybeDieFilter M u.herbs rng
  ({ u with herbs := hs }, r1)

/-- `BioSim._wander_away` (lines 186-189): the migration step of the
driver is a TODO stub whose body is `pass` — it reads nothing and
changes nothing. -/
def simWanderAway (u : UnitArea) (cells : Grid) (rng : Rng) :
    UnitArea × Grid × Rng :=
  (u, cells, rng)

/-- The body of the cell loop in `BioSim.simulate` (lines 144-151): all
six phase helpers are applied to one cell — procreation, feeding, the
migration stub, aging, weight loss, death — before the traversal moves
to the next cell. -/
def simCellYear (M : Model) (u : UnitArea) (rng : Rng) :
    Except String (UnitArea × Rng) := do
  let (u1, r1) ← simMakeBabies M u rng
  let (u2, r2) := simEat M u1 r1
  let (u2w, _, r2w) := simWanderAway u2 [] r2
  let u3 := simGrowOld u2w
  let u4 := simGetThin M u3
  pure (simMeetYourMaker M u4 r2w)

/-- One row of the year loop of `BioSim.simulate`: cells are processed
left to right. -/
def simYearRow (M : Model) : List UnitArea → Rng → Except String (List UnitArea × Rng)
  | [], r => .ok ([], r)
  | u :: rest, r => do
    let (u1, r1) ← simCellYear M u r
    let (rest1, r2) ← simYearRow M rest r1
    pure (u1 :: rest1, r2)

/-- One year of `BioSim.simulate` (lines 142-151): row-major traversal
of the grid, each cell taken through all six phases in turn.  Because
`_wander_away` is a stub, no cell reads or writes any other cell. -/
def simulateYear (M : Model) : Grid → Rng → Except String (Grid × Rng)
  | [], r => .ok ([], r)
  | row :: rest, r => do
    let (row1, r1) ← simYearRow M row r
    let (rest1, r2) ← simulateYear M rest r1
    pure (row1 :: rest1, r2)

/-- `BioSim.simulate(num_years)`: iterate the year loop. -/
def simulate (M : Model) : Nat → Grid → Rng → Except String (Grid × Rng)
  | 0, g, r => .ok (g, r)
  | n + 1, g, r => do
    let (g1, r1) ← simulateYear M g r
    simulate M n g1 r1

/-- One individual record of the initial population
(`{'species': ..., 'age': ..., 'weight': ...}`). -/
structure PopRecord where
  species : String
  age : Nat
  weight : ℚ
deriving DecidableEq, Repr

/-- One placement record (`{'loc': (row, col), 'pop': [...]}`),
1-indexed location. -/
structure CellInfo where
  loc : Nat × Nat
  pop : List PopRecord
deriving DecidableEq, Repr

/-- One placement inside `BioSim._populate_island` (`simulation.py`,
lines 233-243): locate `cells[row - 1][col - 1]` (Python indexing),
construct the animal for a recognised species and insert it with
`add_herb` / `add_carn`; an unknown species string raises.  The grid is
mutated in place, so a successful placement commits immediately. -/
def placeOne (g : Grid) (loc : Nat × Nat) (p : PopRecord) (rng : Rng) :
    Except String (Grid × Rng) :=
  match pyResolve g ((loc.1 : Int) - 1) ((loc.2 : Int) - 1) with
  | none => .error "IndexError: list index out of range"
  | some pos =>
    match getCell g pos.1 pos.2 with
    | none => .error "IndexError: list index out of range"
    | some u =>
      if p.species = "Herbivore" then
        let (i, r1) := rng.fresh
        match addHerb u (some ⟨i, .herbivore, p.age, p.weight, false⟩) with
        | .error e => .error e
        | .ok u2 => .ok (modifyCell g pos.1 pos.2 (fun _ => u2), r1)
      else if p.species = "Carnivore" then
        let (i, r1) := rng.fresh
        match addCarn u (some ⟨i, .carnivore, p.age, p.weight, false⟩) with
        | .error e => .error e
        | .ok u2 => .ok (modifyCell g pos.1 pos.2 (fun _ => u2), r1)
      else .error "Unknown species."

/-- The inner loop of `_populate_island` over one record's individuals:
placements commit one at a time; the first error stops the loop, and the
island keeps every placement made before it (the result pairs the island
state at the moment of return with the error, if any). -/
def populatePops : Grid → Nat × Nat → List PopRecord → Rng → (Grid × Rng) × Option String
  | g, _, [], r => ((g, r), none)
  | g, loc, p :: rest, r =>
    match placeOne g loc p r with
    | .error e => ((g, r), some e)
    | .ok (g1, r1) => populatePops g1 loc rest r1

/-- `BioSim._populate_island` (lines 226-243), the loop over placement
records.  (The `Herbivore`/`Carnivore` process-wide count reset at entry
is reporting-only bookkeeping and is not modelled.) -/
def populateRecords : Grid → List CellInfo → Rng → (Grid × Rng) × Option String
  | g, [], r => ((g, r), none)
  | g, ci :: rest, r =>
    match populatePops g ci.loc ci.pop r with
    | (st, some e) => (st, some e)
    | ((g1, r1), none) => populateRecords g1 rest r1

/-- `BioSim._populate_island` on a non-`None` population list. -/
def populateIsland (g : Grid) (pop : List CellInfo) (rng : Rng) :
    (Grid × Rng) × Option String :=
  populateRecords g pop rng

/-! ## Concrete instances used by witnesses and counterexamples -/

/-- A concrete species parameter set (the default Herbivore values of the
task description, as rationals). -/
def stdParams : FaunaParams :=
  { w_birth := 8, sigma_birth := 3/2, beta := 9/10, eta := 1/20, a_half := 40,
    phi_age := 3/5, w_half := 10, phi_weight := 1/10, mu := 1/4, gamma := 1/5,
    zeta := 7/2, xi := 6/5, omega := 2/5, F := 10, DeltaPhiMax := 10 }

/-- Concrete fodder ceilings: none on Water and Desert. -/
def stdFmax : GeoKind → ℚ
  | .Water => 0
  | .Desert => 0
  | .Lowland => 800
  | .Highland => 300

/-- A concrete model with a constant fitness function. -/
def M0 : Model :=
  { P := fun _ => stdParams, fit := fun _ _ _ => 1/2, f_max := stdFmax }

/-- A concrete oracle stream: every uniform draw is `1` (so no
probabilistic event with probability `< 1` fires), shuffles are the
identity permutation. -/
def rng0 : Rng :=
  { vals := fun _ => 1, perms := fun _ n => List.range n, idx := 0, nextId := 100 }

/-- An empty Water cell at 0-indexed grid position `(r, c)`. -/
def waterCell (r c : Nat) : UnitArea :=
  { loc := (r + 1, c + 1), geo := .Water, herbs := [], carns := [] }

/-- A herbivore whose `has_moved` flag is already set. -/
def herb1 : Fauna :=
  { id := 1, species := .herbivore, age := 5, weight := 20, has_moved := true }

/-- A 3×3 island, Water border, Lowland centre holding `herb1`. -/
def g1 : Grid :=
  [[waterCell 0 0, waterCell 0 1, waterCell 0 2],
   [waterCell 1 0, { loc := (2, 2), geo := .Lowland, herbs := [herb1], carns := [] },
    waterCell 1 2],
   [waterCell 2 0, waterCell 2 1, waterCell 2 2]]

/-- Project the grid out of a non-raising run. -/
def okGrid : Except String (Grid × Rng) → Option Grid
  | .ok (g, _) => some g
  | .error _ => none

/-- A carnivore of age 5 and weight 20. -/
def carn1 : Fauna :=
  { id := 2, species := .carnivore, age := 5, weight := 20, has_moved := false }

/-- A 3×3 island whose Lowland centre holds only the carnivore `carn1`. -/
def g2 : Grid :=
  [[waterCell 0 0, waterCell 0 1, waterCell 0 2],
   [waterCell 1 0, { loc := (2, 2), geo := .Lowland, herbs := [], carns := [carn1] },
    waterCell 1 2],
   [waterCell 2 0, waterCell 2 1, waterCell 2 2]]

/-- A herbivore that has not yet moved. -/
def herb3 : Fauna :=
  { id := 3, species := .herbivore, age := 0, weight := 10, has_moved := false }

/-- Oracle stream for the out-of-bounds migration scenario: the first
draw (`0`) makes the animal attempt a move, the second (`3/10`) selects
the offset `(+1, 0)` — one row down. -/
def rng3 : Rng :=
  { vals := fun n => if n = 0 then 0 else 3/10, perms := fun _ n => List.range n,
    idx := 0, nextId := 100 }

/-- A single-cell grid: one passable Lowland cell holding `herb3`. -/
def g3 : Grid :=
  [[{ loc := (1, 1), geo := .Lowland, herbs := [herb3], carns := [] }]]

/-- Number of animals with identity `i` in a list. -/
def idCount (l : List Fauna) (i : Nat) : Nat :=
  l.countP (fun a => a.id == i)

/-- Number of animals with identity `i` held by a cell (either list). -/
def cellCount (u : UnitArea) (i : Nat) : Nat :=
  idCount u.herbs i + idCount u.carns i

/-- Number of animals with identity `i` on the whole grid. -/
def gridCount (g : Grid) (i : Nat) : Nat :=
  (g.map (fun row => (row.map (fun u => cellCount u i)).sum)).sum

/-- A herbivore for the mid-migration scenario. -/
def herb8 : Fauna :=
  { id := 1, species := .herbivore, age := 0, weight := 10, has_moved := false }

/-- Oracle stream for the mid-migration scenario: the animal attempts a
move (first draw `0`) and selects the offset `(0, +1)` — one column
right (second draw `9/10`). -/
def rng8 : Rng :=
  { vals := fun n => if n = 0 then 0 else 9/10, perms := fun _ n => List.range n,
    idx := 0, nextId := 100 }

/-- A 1×2 grid of two passable Lowland cells, the left one holding
`herb8`. -/
def g8 : Grid :=
  [[{ loc := (1, 1), geo := .Lowland, herbs := [herb8], carns := [] },
    { loc := (1, 2), geo := .Lowland, herbs := [], carns := [] }]]

/-- A 3×3 island with an empty Lowland centre, to be populated. -/
def g4 : Grid :=
  [[waterCell 0 0, waterCell 0 1, waterCell 0 2],
   [waterCell 1 0, { loc := (2, 2), geo := .Lowland, herbs := [], carns := [] },
    waterCell 1 2],
   [waterCell 2 0, waterCell 2 1, waterCell 2 2]]

/-- A population list whose first record places a valid Herbivore at the
centre and whose second names an unknown species. -/
def pop4 : List CellInfo :=
  [{ loc := (2, 2), pop := [{ species := "Herbivore", age := 3, weight := 5 }] },
   { loc := (2, 2), pop := [{ species := "Chimera", age := 1, weight := 1 }] }]

/-- A model whose fitness is strictly increasing in weight and strictly
decreasing in age (the qualitative shape the spec ascribes to the
two-sided logistic), with the default Carnivore feeding parameters
`beta = 3/4`, `F = 50`, `DeltaPhiMax = 10`. -/
def M10 : Model :=
  { P := fun _ => { stdParams with beta := 3/4, F := 50, DeltaPhiMax := 10 },
    fit := fun _ a w => w / ((1 + w) * (1 + (a : ℚ))), f_max := stdFmax }

/-- A heavy, old, low-fitness prey animal. -/
def prey10 : Fauna :=
  { id := 1, species := .herbivore, age := 100, weight := 40, has_moved := false }

/-- The fitter predator (weight 20). -/
def pred10a : Fauna :=
  { id := 2, species := .carnivore, age := 0, weight := 20, has_moved := false }

/-- The weaker predator (weight 10). -/
def pred10b : Fauna :=
  { id := 3, species := .carnivore, age := 0, weight := 10, has_moved := false }

/-- A cell holding the prey and both predators. -/
def u10 : UnitArea :=
  { loc := (1, 1), geo := .Lowland, herbs := [prey10], carns := [pred10a, pred10b] }

/-- Oracle stream for the predation scenario: the first predator's kill
draw is `1` (no kill), the second's is `0` (kill). -/
def rng10 : Rng :=
  { vals := fun n => if n = 0 then 1 else 0, perms := fun _ n => List.range n,
    idx := 0, nextId := 100 }

/-- A second herbivore, so the procreation witness runs with `n = 2`. -/
def herb5 : Fauna :=
  { id := 5, species := .herbivore, age := 2, weight := 30, has_moved := false }

/-- A passable cell with two herbivores and one carnivore, used by the
procreation and feeding witnesses. -/
def uC5 : UnitArea :=
  { loc := (2, 2), geo := .Lowland, herbs := [herb3, herb5], carns := [carn1] }


/-- A 2×2 all-Lowland grid (so no Python index wrap-around can target the
source cell) whose top-left cell holds `herb8`. -/
def gw8 : Grid :=
  [[{ loc := (1, 1), geo := .Lowland, herbs := [herb8], carns := [] },
    { loc := (1, 2), geo := .Lowland, herbs := [], carns := [] }],
   [{ loc := (2, 1), geo := .Lowland, herbs := [], carns := [] },
    { loc := (2, 2), geo := .Lowland, herbs := [], carns := [] }]]

/-- `gw8` after `wander_away` on its top-left cell under `rng8`: the
herbivore moved one cell right, flag set. -/
def gw8after : Grid :=
  [[{ loc := (1, 1), geo := .Lowland, herbs := [], carns := [] },
    { loc := (1, 2), geo := .Lowland,
      herbs := [{ id := 1, species := .herbivore, age := 0, weight := 10, has_moved := true }],
      carns := [] }],
   [{ loc := (2, 1), geo := .Lowland, herbs := [], carns := [] },
    { loc := (2, 2), geo := .Lowland, herbs := [], carns := [] }]]


/-! ## Claim-side reference definitions (refinement targets) -/

/-- The procreation pass as the claim words it: every *existing* animal
is offered `procreate` with the fixed snapshot count `n`; the pass
returns the updated parents in their positions and the newborns in birth
order, kept apart from the parents. -/
def procThread (M : Model) (n : Nat) : List Fauna → Rng → List Fauna × List Fauna × Rng
  | [], r => ([], [], r)
  | a :: rest, r =>
    let (b, a2, r1) := procreate M a n r
    let (ps, bs, r2) := procThread M n rest r1
    (a2 :: ps, (match b with | some x => x :: bs | none => bs), r2)

/-- The claim's description of one species' procreation pass: snapshot
the count first, thread `procreate` over the existing animals only. -/
def makeBabiesSpec (M : Model) (animals : List Fauna) (rng : Rng) :
    List Fauna × List Fauna × Rng :=
  procThread M animals.length animals rng

/-- The successive prey pools offered to the predators during
`carnsEatLoop`: the pool offered to each predator, in hunting order.
The next pool is the current one with the prey just eaten removed. -/
def offeredSteps (M : Model) : List Fauna → List Fauna → Rng → List (List Fauna)
  | [], _, _ => []
  | c :: cs, hs, r =>
    let (eaten, _, r2) := feedOnHerbivores M c hs r
    hs :: offeredSteps M cs (hs.filter (fun h => !(eaten.any (fun e => e.id == h.id)))) r2

/-- The remaining fodder after the first `k` entries of the feeding
order have been processed (`herbEatLoop` over a prefix). -/
def fodderAfter (M : Model) (perm : List Nat) (f0 : ℚ) (hs : List Fauna) (k : Nat) : ℚ :=
  (herbEatLoop M (perm.take k) f0 hs).1

/-! ## Shared helper lemmas -/

theorem populatePops_append (loc : Nat × Nat) (ps qs : List PopRecord) :
    ∀ (g : Grid) (r : Rng),
      populatePops g loc (ps ++ qs) r =
        (match populatePops g loc ps r with
         | (st, some e) => (st, some e)
         | ((g1, r1), none) => populatePops g1 loc qs r1) := by
  induction ps with
  | nil => intro g r; rfl
  | cons p rest ih =>
    intro g r
    show populatePops g loc (p :: (rest ++ qs)) r = _
    simp only [populatePops]
    rcases h : placeOne g loc p r with e | ⟨g1, r1⟩ <;> simp only [h, ih]

theorem populateRecords_append (xs ys : List CellInfo) :
    ∀ (g : Grid) (r : Rng),
      populateRecords g (xs ++ ys) r =
        (match populateRecords g xs r with
         | (st, some e) => (st, some e)
         | ((g1, r1), none) => populateRecords g1 ys r1) := by
  induction xs with
  | nil => intro g r; rfl
  | cons ci rest ih =>
    intro g r
    show populateRecords g (ci :: (rest ++ ys)) r = _
    simp only [populateRecords]
    rcases h : populatePops g ci.loc ci.pop r with ⟨⟨g1, r1⟩, err⟩
    cases err with
    | none => simp only [h, ih]
    | some e => simp only [h]

/-! ## Claim theorems -/

/-- C1.  The claim says each simulated year first resets every animal's
`has_moved` flag and then runs migration as a global grid-wide pass
between feeding and aging.  Evaluating the driver's year loop on a 3×3
island whose only animal starts the year with `has_moved = true` shows
the flag still set after the year: `BioSim.simulate` never resets it
(and its `_wander_away` is a stub, so no migration pass exists; all six
phases run per cell inside one traversal). -/
theorem C1_year_never_resets_move_flag :
    ((okGrid (simulateYear M0 g1 rng0)).bind
      (fun g => (getCell g 1 1).map (fun u => u.herbs.map Fauna.has_moved))) =
      some [true] := by decide

/-- C2.  The claim says every phase of the annual cycle is applied to
both species.  Evaluating the driver's year loop on a 3×3 island whose
centre holds one carnivore (age 5, weight 20) returns the carnivore
bit-identical: the driver's phase helpers touch only `cell.herbs`, so
carnivores are never procreated, fed, aged, thinned or exposed to
death. -/
theorem C2_year_leaves_carnivores_untouched :
    ((okGrid (simulateYear M0 g2 rng0)).bind
      (fun g => (getCell g 1 1).map (fun u => u.carns))) =
      some [carn1] := by decide

/-- C3, counterexample.  The claim says a move targeting an
out-of-bounds destination is "abandoned without error".  On a 1×1 grid
of one passable cell whose animal proposes the offset `(+1, 0)`,
`wander_away` raises `IndexError` (`_migrate_to` indexes
`cells[row + 1]` with no bounds check) instead of abandoning the
move. -/
theorem C3_counterexample_out_of_bounds_move_raises :
    (match wanderAway M0 0 0 g3 rng3 with
     | .error e => some e
     | .ok _ => none) = some "IndexError: list index out of range" := by decide

/-- C4, counterexample.  The claim says a failing placement record
leaves every cell with the animal lists it had before the load began.
Loading `pop4` (a valid Herbivore placement followed by an unknown
species) into the island `g4` raises `Unknown species.` yet leaves the
centre cell holding the herbivore placed by the first record (it held
none before). -/
theorem C4_counterexample_partial_population_committed :
    (populateIsland g4 pop4 rng0).2 = some "Unknown species." ∧
    ((getCell (populateIsland g4 pop4 rng0).1.1 1 1).map (fun u => u.herbs.length))
      = some 1 ∧
    (getCell g4 1 1).map (fun u => u.herbs.length) = some 0 := by decide

/-- C4, amended.  Population loading aborts at the first failing
placement, the error propagating, but placements already performed stay
committed: the loop over one record's individuals and the loop over
records both short-circuit at the first error while keeping the island
state built so far (the returned state is the fold over the successful
prefix). -/
theorem C4_amended_first_error_keeps_prefix
    (g : Grid) (xs ys : List CellInfo) (loc : Nat × Nat) (ps qs : List PopRecord)
    (r : Rng) :
    populatePops g loc (ps ++ qs) r =
      (match populatePops g loc ps r with
       | (st, some e) => (st, some e)
       | ((g1, r1), none) => populatePops g1 loc qs r1) ∧
    populateRecords g (xs ++ ys) r =
      (match populateRecords g xs r with
       | (st, some e) => (st, some e)
       | ((g1, r1), none) => populateRecords g1 ys r1) :=
  ⟨populatePops_append loc ps qs g r, populateRecords_append xs ys g r⟩

/-- C8, counterexample.  The claim says that after each completed
operation on cells every animal belongs to exactly one cell.  Inside
`wander_away`, the mover is appended to the destination cell first and
only removed from the source list by the batched filter after the loop:
after the completed `add_herb` on the destination (the state returned by
the loop body, before the filter) the animal with identity 1 is present
in two cells at once. -/
theorem C8_counterexample_mover_in_two_cells_mid_pass :
    (match wanderLoop M0 true 0 0 [herb8] g8 rng8 [] with
     | .ok (gmid, _, _) => some (gridCount gmid 1)
     | .error _ => none) = some 2 ∧
    gridCount g8 1 = 1 := by decide

/-- C10, counterexample.  The claim says that after the predator feeding
phase the cell's predator list is sorted in descending fitness order.
In `u10` the predators are sorted `[pred10a, pred10b]` at phase start,
`pred10a` kills nothing while `pred10b` eats the heavy prey and gains
weight past `pred10a`; fitness being increasing in weight, the stored
predator list ends *not* descending in fitness. -/
theorem C10_counterexample_predators_not_sorted_after_gains :
    ¬ List.Pairwise (fun a b => fitness M10 b ≤ fitness M10 a)
        ((carnivoresEat M10 u10 rng10).1.carns) := by decide

/-- C9.  The insertion operations `add_herb`, `add_herbs` and `add_carn`
return silently on a `None` argument without touching the cell or its
terrain check — even on an impassable cell — whereas inserting an actual
animal into an impassable cell raises. -/
theorem C9_none_insertions_silent (u : UnitArea) (a : Fauna) (l : List Fauna) :
    addHerb u none = .ok u ∧ addHerbs u none = .ok u ∧ addCarn u none = .ok u ∧
    (u.geo.can_animals_move_here = false →
      addHerb u (some a) = .error "No animals allowed here" ∧
      addHerbs u (some l) = .error "No animals allowed here" ∧
      addCarn u (some a) = .error "No animals allowed here") := by
  refine ⟨rfl, rfl, rfl, fun h => ?_⟩
  refine ⟨?_, ?_, ?_⟩ <;> simp [addHerb, addHerbs, addCarn, h]

/-- Witness for C9 at a Water cell: the `None` insertion succeeds
silently there while inserting an animal raises. -/
theorem C9_witness :
    addHerb (waterCell 0 0) none = Except.ok (waterCell 0 0) ∧
    addHerb (waterCell 0 0) (some herb1) = Except.error "No animals allowed here" := by
  have h := C9_none_insertions_silent (waterCell 0 0) herb1 []
  exact ⟨h.1, (h.2.2.2 (by decide)).1⟩

theorem minQ_le_right (a b : ℚ) : minQ a b ≤ b := by
  unfold minQ; split <;> linarith

theorem insertOn_perm (key : α → ℚ) (a : α) (l : List α) :
    List.Perm (insertOn key a l) (a :: l) := by
  induction l with
  | nil => rfl
  | cons b bs ih =>
    show List.Perm (if key a ≤ key b then a :: b :: bs else b :: insertOn key a bs) _
    split
    · exact List.Perm.refl _
    · exact List.Perm.trans (List.Perm.cons b ih) (List.Perm.swap a b bs)

theorem sortOn_perm (key : α → ℚ) (l : List α) : List.Perm (sortOn key l) l := by
  induction l with
  | nil => rfl
  | cons a rest ih =>
    exact List.Perm.trans (insertOn_perm key a (sortOn key rest)) (List.Perm.cons a ih)

theorem pairwise_insertOn (key : α → ℚ) (a : α) (l : List α)
    (h : l.Pairwise (fun x y => key x ≤ key y)) :
    (insertOn key a l).Pairwise (fun x y => key x ≤ key y) := by
  induction l with
  | nil => exact List.pairwise_singleton _ a
  | cons b bs ih =>
    rw [List.pairwise_cons] at h
    show (if key a ≤ key b then a :: b :: bs else b :: insertOn key a bs).Pairwise _
    split
    · rename_i hab
      refine List.pairwise_cons.2 ⟨?_, List.pairwise_cons.2 ⟨h.1, h.2⟩⟩
      intro x hx
      rcases List.mem_cons.1 hx with rfl | hx
      · exact hab
      · exact le_trans hab (h.1 x hx)
    · rename_i hab
      refine List.pairwise_cons.2 ⟨?_, ih h.2⟩
      intro x hx
      rcases List.mem_cons.1 ((insertOn_perm key a bs).mem_iff.1 hx) with hxa | hxb
      · subst hxa; exact le_of_lt (lt_of_not_le hab)
      · exact h.1 x hxb

theorem sortOn_pairwise (key : α → ℚ) (l : List α) :
    (sortOn key l).Pairwise (fun x y => key x ≤ key y) := by
  induction l with
  | nil => exact List.Pairwise.nil
  | cons a rest ih => exact pairwise_insertOn key a _ ih

theorem makeBabiesOfLoop_eq (M : Model) (n : Nat) :
    ∀ (l ps bs : List Fauna) (r : Rng),
      makeBabiesOfLoop M n l ps bs r =
        (ps ++ (procThread M n l r).1, bs ++ (procThread M n l r).2.1,
         (procThread M n l r).2.2) := by
  intro l
  induction l with
  | nil => intro ps bs r; simp [makeBabiesOfLoop, procThread]
  | cons a rest ih =>
    intro ps bs r
    show makeBabiesOfLoop M n (a :: rest) ps bs r = _
    rcases hp : procreate M a n r with ⟨b, a2, r2⟩
    rw [makeBabiesOfLoop, hp]
    dsimp only
    rw [ih]
    cases b with
    | none =>
      have hth : procThread M n (a :: rest) r =
          (a2 :: (procThread M n rest r2).1, (procThread M n rest r2).2.1,
           (procThread M n rest r2).2.2) := by
        conv_lhs => rw [procThread, hp]
      rw [hth]
      simp
    | some x =>
      have hth : procThread M n (a :: rest) r =
          (a2 :: (procThread M n rest r2).1, x :: (procThread M n rest r2).2.1,
           (procThread M n rest r2).2.2) := by
        conv_lhs => rw [procThread, hp]
      rw [hth]
      simp

theorem herbEatLoop_stopped (M : Model) (p : List Nat) (f : ℚ) (hs : List Fauna)
    (hf : f ≤ 0) : herbEatLoop M p f hs = (f, hs) := by
  cases p with
  | nil => rfl
  | cons i rest => simp [herbEatLoop, hf]

theorem herbEatLoop_append (M : Model) :
    ∀ (p1 p2 : List Nat) (f : ℚ) (hs : List Fauna),
      herbEatLoop M (p1 ++ p2) f hs =
        herbEatLoop M p2 (herbEatLoop M p1 f hs).1 (herbEatLoop M p1 f hs).2 := by
  intro p1
  induction p1 with
  | nil => intro p2 f hs; rfl
  | cons i rest ih =>
    intro p2 f hs
    by_cases hf : f ≤ 0
    · have h1 : herbEatLoop M (i :: rest) f hs = (f, hs) := herbEatLoop_stopped M _ _ _ hf
      rw [List.cons_append, herbEatLoop_stopped M _ _ _ hf, h1]
      exact (herbEatLoop_stopped M p2 f hs hf).symm
    · show herbEatLoop M (i :: (rest ++ p2)) f hs = _
      rw [herbEatLoop, herbEatLoop]
      simp only [if_neg hf]
      cases hg : hs.get? i with
      | none => exact ih p2 f hs
      | some h => exact ih p2 _ _

theorem herbEatLoop_nonneg (M : Model) :
    ∀ (p : List Nat) (f : ℚ) (hs : List Fauna), 0 ≤ f →
      0 ≤ (herbEatLoop M p f hs).1 := by
  intro p
  induction p with
  | nil => intro f hs hf; exact hf
  | cons i rest ih =>
    intro f hs hf
    by_cases h0 : f ≤ 0
    · rw [herbEatLoop_stopped M _ _ _ h0]; exact hf
    · rw [herbEatLoop]
      simp only [if_neg h0]
      cases hg : hs.get? i with
      | none => exact ih f hs hf
      | some h =>
        refine ih _ _ ?_
        have := minQ_le_right (M.P h.species).F f
        simp only [feedAndGainWeight]
        linarith

theorem huntLoop_keeps_id (M : Model) :
    ∀ (hs : List Fauna) (c : Fauna) (ap : ℚ) (r : Rng) (eaten : List Fauna),
      (huntLoop M hs c ap r eaten).2.1.id = c.id := by
  intro hs
  induction hs with
  | nil => intro c ap r eaten; rfl
  | cons h rest ih =>
    intro c ap r eaten
    rw [huntLoop]
    by_cases hap : ap ≤ 0
    · simp [hap]
    · simp only [if_neg hap]
      split_ifs <;> exact ih _ _ _ _

theorem carnsEatLoop_carn_ids (M : Model) :
    ∀ (cs hs : List Fauna) (r : Rng) (acc : List Fauna),
      ((carnsEatLoop M cs hs r acc).1).map Fauna.id =
        acc.map Fauna.id ++ cs.map Fauna.id := by
  intro cs
  induction cs with
  | nil => intro hs r acc; simp [carnsEatLoop]
  | cons c rest ih =>
    intro hs r acc
    rw [carnsEatLoop]
    rcases hfeed : feedOnHerbivores M c hs r with ⟨eaten, c2, r2⟩
    rw [ih]
    have hid : c2.id = c.id := by
      have := huntLoop_keeps_id M hs c (M.P c.species).F r []
      rw [feedOnHerbivores] at hfeed
      rw [hfeed] at this
      exact this
    simp [hid]

theorem carnsEatLoop_herbs_sublist (M : Model) :
    ∀ (cs hs : List Fauna) (r : Rng) (acc : List Fauna),
      ((carnsEatLoop M cs hs r acc).2.1).Sublist hs := by
  intro cs
  induction cs with
  | nil => intro hs r acc; exact List.Sublist.refl hs
  | cons c rest ih =>
    intro hs r acc
    rw [carnsEatLoop]
    rcases hfeed : feedOnHerbivores M c hs r with ⟨eaten, c2, r2⟩
    exact List.Sublist.trans (ih _ _ _) (List.filter_sublist hs)

theorem offeredSteps_sorted (M : Model) :
    ∀ (cs hs : List Fauna) (r : Rng),
      hs.Pairwise (fun a b => fitness M a ≤ fitness M b) →
      ∀ l ∈ offeredSteps M cs hs r,
        l.Pairwise (fun a b => fitness M a ≤ fitness M b) := by
  intro cs
  induction cs with
  | nil => intro hs r _ l hl; simp [offeredSteps] at hl
  | cons c rest ih =>
    intro hs r hsort l hl
    rw [offeredSteps] at hl
    rcases hfeed : feedOnHerbivores M c hs r with ⟨eaten, c2, r2⟩
    rw [hfeed] at hl
    rcases List.mem_cons.1 hl with rfl | hl
    · exact hsort
    · exact ih _ _ (List.Pairwise.sublist (List.filter_sublist hs) hsort) l hl

theorem except_ok_bind (x : α) (f : α → Except ε β) :
    (Except.ok x : Except ε α) >>= f = f x := rfl

theorem makeBabiesOf_eq_spec (M : Model) (l : List Fauna) (r : Rng) :
    makeBabiesOf M l r = makeBabiesSpec M l r := by
  rw [makeBabiesOf, makeBabiesOfLoop_eq]
  simp [makeBabiesSpec]

/-- C5.  The count handed to every `procreate` call of a procreation
pass is the species count snapshotted at the start of the pass
(`makeBabiesSpec` threads the constant `animals.length`), and the
newborns are appended to the species sequence only after the pass over
the existing animals completes — both in the cell's own `make_babies`
and in the driver's `_make_babies`, so no newborn is offered `procreate`
in the year it is born. -/
theorem C5_procreation_snapshot_and_append (M : Model) (u : UnitArea) (rng : Rng)
    (hp : u.geo.can_animals_move_here = true) :
    makeBabiesOf M u.herbs rng = makeBabiesSpec M u.herbs rng ∧
    makeBabies M u rng =
      .ok ({ u with
              herbs := (makeBabiesSpec M u.herbs rng).1 ++
                (makeBabiesSpec M u.herbs rng).2.1,
              carns := (makeBabiesSpec M u.carns (makeBabiesSpec M u.herbs rng).2.2).1 ++
                (makeBabiesSpec M u.carns (makeBabiesSpec M u.herbs rng).2.2).2.1 },
            (makeBabiesSpec M u.carns (makeBabiesSpec M u.herbs rng).2.2).2.2) ∧
    simMakeBabies M u rng =
      .ok ({ u with
              herbs := (makeBabiesSpec M u.herbs rng).1 ++
                (makeBabiesSpec M u.herbs rng).2.1 },
            (makeBabiesSpec M u.herbs rng).2.2) := by
  have e1 := makeBabiesOf_eq_spec M u.herbs rng
  refine ⟨e1, ?_, ?_⟩
  · rcases hh : makeBabiesSpec M u.herbs rng with ⟨hs, hb, r1⟩
    rcases hc : makeBabiesSpec M u.carns r1 with ⟨cs, cb, r2⟩
    have haddh : addHerbs { u with herbs := hs } (some hb) =
        .ok { u with herbs := hs ++ hb } := by
      simp [addHerbs, hp]
    have haddc : addCarns { u with herbs := hs ++ hb, carns := cs } (some cb) =
        .ok { u with herbs := hs ++ hb, carns := cs ++ cb } := by
      simp [addCarns, hp]
    rw [makeBabies, e1, hh]
    dsimp only
    rw [haddh, except_ok_bind]
    dsimp only
    rw [makeBabiesOf_eq_spec, hc]
    dsimp only
    rw [haddc, except_ok_bind]
    rfl
  · rcases hh : makeBabiesSpec M u.herbs rng with ⟨hs, hb, r1⟩
    rw [simMakeBabies, e1, hh]
    dsimp only
    by_cases hb0 : hb.isEmpty
    · have hbe : hb = [] := List.isEmpty_iff.1 hb0
      subst hbe
      simp
    · have haddh : addHerbs { u with herbs := hs } (some hb) =
          .ok { u with herbs := hs ++ hb } := by
        simp [addHerbs, hp]
      simp [hb0, haddh]

/-- Witness for C5 on a concrete passable cell with two herbivores. -/
theorem C5_witness :
    makeBabiesOf M0 uC5.herbs rng0 = makeBabiesSpec M0 uC5.herbs rng0 :=
  (C5_procreation_snapshot_and_append M0 uC5 rng0 (by decide)).1

/-- C6.  Herbivore feeding starts from a fodder pool reset to the
terrain's `f_max` (nothing carries over between years), feeds the
animals one at a time in the shuffled order, keeps the shared pool
non-negative after every step, and once the pool is exhausted the rest
of the feeding order changes nothing. -/
theorem C6_fodder_reset_shuffled_nonneg_stops (M : Model) (u : UnitArea) (rng : Rng)
    (hmax : 0 ≤ M.f_max u.geo) :
    herbivoresEat M u rng =
      ({ u with herbs :=
          (herbEatLoop M (rng.perms rng.idx u.herbs.length) (M.f_max u.geo) u.herbs).2 },
       { rng with idx := rng.idx + 1 }) ∧
    fodderAfter M (rng.perms rng.idx u.herbs.length) (M.f_max u.geo) u.herbs 0 =
      M.f_max u.geo ∧
    (∀ k, 0 ≤ fodderAfter M (rng.perms rng.idx u.herbs.length) (M.f_max u.geo) u.herbs k) ∧
    (∀ k, fodderAfter M (rng.perms rng.idx u.herbs.length) (M.f_max u.geo) u.herbs k ≤ 0 →
      herbEatLoop M (rng.perms rng.idx u.herbs.length) (M.f_max u.geo) u.herbs =
        herbEatLoop M ((rng.perms rng.idx u.herbs.length).take k) (M.f_max u.geo) u.herbs) := by
  refine ⟨rfl, rfl, ?_, ?_⟩
  · intro k
    exact herbEatLoop_nonneg M _ _ _ hmax
  · intro k hk
    rw [fodderAfter] at hk
    conv_lhs => rw [← List.take_append_drop k (rng.perms rng.idx u.herbs.length)]
    rw [herbEatLoop_append, herbEatLoop_stopped M _ _ _ hk]

/-- Witness for C6 on a concrete Lowland cell with two herbivores: the
pool is still non-negative after the whole feeding order. -/
theorem C6_witness :
    0 ≤ fodderAfter M0 (rng0.perms rng0.idx uC5.herbs.length)
          (M0.f_max uC5.geo) uC5.herbs 2 :=
  (C6_fodder_reset_shuffled_nonneg_stops M0 uC5 rng0 (by decide)).2.2.1 2

/-- C7.  The predator feeding phase hunts in descending fitness order
(the predator list is sorted so before the loop), offers every predator
a prey pool sorted by ascending fitness, and removes the prey eaten by
one predator from the pool before the next predator hunts, so the pools
only shrink (the surviving prey list is a sub-sequence of the initial
ascending pool). -/
theorem C7_predation_order (M : Model) (u : UnitArea) (rng : Rng) :
    List.Pairwise (fun a b => fitness M b ≤ fitness M a)
      (sortOn (fun c => -(fitness M c)) u.carns) ∧
    (∀ l ∈ offeredSteps M (sortOn (fun c => -(fitness M c)) u.carns)
        (sortOn (fun h => fitness M h) u.herbs) rng,
      List.Pairwise (fun a b => fitness M a ≤ fitness M b) l) ∧
    ((carnivoresEat M u rng).1.herbs).Sublist (sortOn (fun h => fitness M h) u.herbs) ∧
    carnivoresEat M u rng =
      ({ u with
          carns := (carnsEatLoop M (sortOn (fun c => -(fitness M c)) u.carns)
            (sortOn (fun h => fitness M h) u.herbs) rng []).1,
          herbs := (carnsEatLoop M (sortOn (fun c => -(fitness M c)) u.carns)
            (sortOn (fun h => fitness M h) u.herbs) rng []).2.1 },
       (carnsEatLoop M (sortOn (fun c => -(fitness M c)) u.carns)
         (sortOn (fun h => fitness M h) u.herbs) rng []).2.2) := by
  refine ⟨?_, ?_, ?_, rfl⟩
  · exact (sortOn_pairwise (fun c => -(fitness M c)) u.carns).imp (by intro a b h; linarith)
  · exact offeredSteps_sorted M _ _ rng (sortOn_pairwise (fun h => fitness M h) u.herbs)
  · exact carnsEatLoop_herbs_sublist M _ _ _ _

/-- Witness for C7: the pool offered to the first predator of the
concrete predation scenario is sorted by ascending fitness. -/
theorem C7_witness :
    List.Pairwise (fun a b => fitness M10 a ≤ fitness M10 b)
      (sortOn (fun h => fitness M10 h) u10.herbs) :=
  (C7_predation_order M10 u10 rng10).2.1 _ (by decide)

/-- C10, amended.  The predator feeding phase mutates the stored lists
as a lasting side effect: after the phase the cell's predator list is
exactly the predators in the order of the descending-fitness sort
performed at phase start (weight gains during hunting may break the
descending order with respect to post-phase fitness — see the
counterexample), and the surviving prey list is a sub-sequence of the
ascending-fitness sort, hence still sorted by ascending fitness. -/
theorem C10_amended_sorts_persist_in_cell (M : Model) (u : UnitArea) (rng : Rng) :
    ((carnivoresEat M u rng).1.carns).map Fauna.id =
      (sortOn (fun c => -(fitness M c)) u.carns).map Fauna.id ∧
    ((carnivoresEat M u rng).1.herbs).Sublist (sortOn (fun h => fitness M h) u.herbs) ∧
    List.Pairwise (fun a b => fitness M a ≤ fitness M b)
      ((carnivoresEat M u rng).1.herbs) := by
  refine ⟨?_, carnsEatLoop_herbs_sublist M _ _ _ _, ?_⟩
  · have := carnsEatLoop_carn_ids M (sortOn (fun c => -(fitness M c)) u.carns)
      (sortOn (fun h => fitness M h) u.herbs) rng []
    simpa using this
  · exact List.Pairwise.sublist (carnsEatLoop_herbs_sublist M _ _ _ _)
      (sortOn_pairwise (fun h => fitness M h) u.herbs)

theorem listModify_get?_eq (f : α → α) :
    ∀ (l : List α) (n : Nat), (listModify f n l).get? n = (l.get? n).map f := by
  intro l
  induction l with
  | nil => intro n; cases n <;> rfl
  | cons a rest ih =>
    intro n
    cases n with
    | zero => rfl
    | succ m => exact ih m

theorem listModify_get?_ne (f : α → α) :
    ∀ (l : List α) (n m : Nat), n ≠ m → (listModify f n l).get? m = l.get? m := by
  intro l
  induction l with
  | nil => intro n m _; cases n <;> rfl
  | cons a rest ih =>
    intro n m hnm
    cases n with
    | zero =>
      cases m with
      | zero => exact absurd rfl hnm
      | succ k => rfl
    | succ n0 =>
      cases m with
      | zero => rfl
      | succ k => exact ih n0 k (fun hh => hnm (by rw [hh]))

theorem listModify_eq_self (f : α → α) :
    ∀ (l : List α) (n : Nat) (a : α), l.get? n = some a → f a = a →
      listModify f n l = l := by
  intro l
  induction l with
  | nil => intro n a h _; cases n <;> cases h
  | cons b rest ih =>
    intro n a h hf
    cases n with
    | zero =>
      injection h with h2
      subst h2
      show f b :: rest = b :: rest
      rw [hf]
    | succ m =>
      show b :: listModify f m rest = b :: rest
      rw [ih m a h hf]

theorem listModify_congr (f f2 : α → α) :
    ∀ (l : List α) (n : Nat) (a : α), l.get? n = some a → f a = f2 a →
      listModify f n l = listModify f2 n l := by
  intro l
  induction l with
  | nil => intro n a h _; cases n <;> cases h
  | cons b rest ih =>
    intro n a h hf
    cases n with
    | zero =>
      injection h with h2
      subst h2
      show f b :: rest = f2 b :: rest
      rw [hf]
    | succ m =>
      show b :: listModify f m rest = b :: listModify f2 m rest
      rw [ih m a h hf]

theorem getCell_row (g : Grid) (r c : Nat) (u : UnitArea)
    (h : getCell g r c = some u) :
    ∃ row, g.get? r = some row ∧ row.get? c = some u := by
  rw [getCell] at h
  cases hr : g.get? r with
  | none => rw [hr] at h; cases h
  | some row =>
    rw [hr] at h
    exact ⟨row, rfl, h⟩

theorem getCell_modifyCell_same (g : Grid) (r c : Nat) (u : UnitArea)
    (f : UnitArea → UnitArea) (h : getCell g r c = some u) :
    getCell (modifyCell g r c f) r c = some (f u) := by
  obtain ⟨row, hrow, hcell⟩ := getCell_row g r c u h
  rw [getCell, modifyCell, listModify_get?_eq, hrow]
  show (listModify f c row).get? c = some (f u)
  rw [listModify_get?_eq, hcell]
  rfl

theorem getCell_modifyCell_ne (g : Grid) (r c r2 c2 : Nat)
    (f : UnitArea → UnitArea) (h : (r2, c2) ≠ (r, c)) :
    getCell (modifyCell g r c f) r2 c2 = getCell g r2 c2 := by
  by_cases hr : r = r2
  · subst hr
    have hc : c ≠ c2 := by
      intro hc; exact h (by rw [hc])
    rw [getCell, modifyCell, listModify_get?_eq, getCell]
    cases hrow : g.get? r with
    | none => rfl
    | some row =>
      show (listModify f c row).get? c2 = row.get? c2
      exact listModify_get?_ne f row c c2 hc
  · rw [getCell, modifyCell, listModify_get?_ne _ _ _ _ hr, getCell]

theorem modifyCell_eq_self (g : Grid) (r c : Nat) (u : UnitArea)
    (f : UnitArea → UnitArea) (h : getCell g r c = some u) (hf : f u = u) :
    modifyCell g r c f = g := by
  obtain ⟨row, hrow, hcell⟩ := getCell_row g r c u h
  rw [modifyCell]
  exact listModify_eq_self _ g r row hrow
    (listModify_eq_self f row c u hcell hf)

theorem modifyCell_congr (g : Grid) (r c : Nat) (u : UnitArea)
    (f f2 : UnitArea → UnitArea) (h : getCell g r c = some u) (hf : f u = f2 u) :
    modifyCell g r c f = modifyCell g r c f2 := by
  obtain ⟨row, hrow, hcell⟩ := getCell_row g r c u h
  rw [modifyCell, modifyCell]
  exact listModify_congr _ _ g r row hrow
    (listModify_congr f f2 row c u hcell hf)

theorem filter_no_ids (l : List Fauna) :
    l.filter (fun a => !((([] : List Nat)).contains a.id)) = l := by
  simp

theorem setAnimals_self (b : Bool) (u : UnitArea) :
    setAnimals b u (getAnimals b u) = u := by
  cases b <;> rfl

theorem wanderPass_empty (M : Model) (b : Bool) (r c : Nat) (g : Grid) (rng : Rng)
    (u : UnitArea) (hsrc : getCell g r c = some u)
    (hempty : getAnimals b u = []) :
    wanderPass M b r c g rng = .ok (g, rng) := by
  rw [wanderPass, hsrc]
  dsimp only
  rw [hempty, wanderLoop]
  dsimp only
  refine congrArg (fun x => Except.ok (x, rng)) ?_
  refine modifyCell_eq_self g r c u _ hsrc ?_
  rw [filter_no_ids, setAnimals_self]

theorem migrateTo_ok_some (M : Model) (a : Fauna) (row col : Nat) (g : Grid)
    (rng : Rng) (pos : Nat × Nat) (r2 : Rng)
    (hm : migrateTo M a row col g rng = .ok (some pos, r2)) :
    ∃ dest, getCell g pos.1 pos.2 = some dest ∧
      dest.geo.can_animals_move_here = true := by
  rw [migrateTo] at hm
  rcases hw : willYouMove M a rng with ⟨will, r1⟩
  rw [hw] at hm
  dsimp only at hm
  cases will with
  | false => simp at hm
  | true =>
    rw [Bool.not_true, if_neg (by simp)] at hm
    rcases hoff : whereWillYouMove r1 with ⟨off, r3⟩
    rw [hoff] at hm
    dsimp only at hm
    cases hres : pyResolve g ((row : Int) + off.1) ((col : Int) + off.2) with
    | none => rw [hres] at hm; cases hm
    | some pos2 =>
      rw [hres] at hm
      dsimp only at hm
      cases hdc : getCell g pos2.1 pos2.2 with
      | none => rw [hdc] at hm; cases hm
      | some d =>
        rw [hdc] at hm
        dsimp only at hm
        by_cases hp : d.geo.can_animals_move_here
        · rw [if_pos hp] at hm
          injection hm with hm1
          injection hm1 with hma hmb
          injection hma with hpos
          subst hpos
          exact ⟨d, hdc, hp⟩
        · rw [if_neg hp] at hm
          injection hm with hm1
          injection hm1 with hma hmb
          cases hma

theorem addAnimalAt_herb_ok (g : Grid) (r c : Nat) (d : UnitArea) (a : Fauna)
    (hdc : getCell g r c = some d) (hp : d.geo.can_animals_move_here = true) :
    addAnimalAt g r c true a =
      .ok (modifyCell g r c (fun _ => { d with herbs := d.herbs ++ [a] })) := by
  rw [addAnimalAt, hdc]
  dsimp only
  rw [addAnimal]
  simp [addHerb, hp]

/-- C3, amended.  For a cell holding a single animal: a proposed move
whose Python-resolved destination index is out of range raises
`IndexError` (rather than being abandoned); a proposal the decision
abandons (no move, or an impassable destination) leaves the grid
unchanged without error; and a move onto a passable resolved destination
distinct from the source succeeds — the destination is passable, the
animal is appended there with `has_moved` set and is removed from the
source list.  There is no retry in any case: one `migrate_to` decision
is consulted per animal per pass. -/
theorem C3_amended_single_move (M : Model) (g : Grid) (r c : Nat) (u : UnitArea)
    (h : Fauna) (rng : Rng)
    (hsrc : getCell g r c = some u)
    (hherbs : u.herbs = [h]) (hcarns : u.carns = []) :
    (migrateTo M h r c g rng = .error "IndexError: list index out of range" →
      wanderAway M r c g rng = .error "IndexError: list index out of range") ∧
    (∀ r2, migrateTo M h r c g rng = .ok (none, r2) →
      wanderAway M r c g rng = .ok (g, r2)) ∧
    (∀ pos r2, migrateTo M h r c g rng = .ok (some pos, r2) → pos ≠ (r, c) →
      ∃ dest, getCell g pos.1 pos.2 = some dest ∧
        dest.geo.can_animals_move_here = true ∧
        wanderAway M r c g rng = .ok
          (modifyCell (modifyCell g pos.1 pos.2
              (fun d => { d with herbs := d.herbs ++ [{ h with has_moved := true }] }))
            r c (fun s => { s with herbs := [] }), r2)) := by
  have hga : getAnimals true u = [h] := by simp [getAnimals, hherbs]
  refine ⟨?_, ?_, ?_⟩
  · intro hmig
    have hpassH : wanderPass M true r c g rng =
        .error "IndexError: list index out of range" := by
      rw [wanderPass, hsrc]
      dsimp only
      rw [hga, wanderLoop, hmig]
    rw [wanderAway, hpassH]
    rfl
  · intro r2 hmig
    have hpassH : wanderPass M true r c g rng = .ok (g, r2) := by
      rw [wanderPass, hsrc]
      dsimp only
      rw [hga, wanderLoop, hmig]
      dsimp only
      rw [wanderLoop]
      dsimp only
      refine congrArg (fun x => Except.ok (x, r2)) ?_
      refine modifyCell_eq_self g r c u _ hsrc ?_
      rw [filter_no_ids, setAnimals_self]
    rw [wanderAway, hpassH, except_ok_bind]
    exact wanderPass_empty M false r c g r2 u hsrc (by simp [getAnimals, hcarns])
  · intro pos r2 hmig hne
    obtain ⟨dest, hdc, hp⟩ := migrateTo_ok_some M h r c g rng pos r2 hmig
    refine ⟨dest, hdc, hp, ?_⟩
    have hadd := addAnimalAt_herb_ok g pos.1 pos.2 dest { h with has_moved := true } hdc hp
    have hconst : modifyCell g pos.1 pos.2
        (fun _ => { dest with herbs := dest.herbs ++ [{ h with has_moved := true }] }) =
        modifyCell g pos.1 pos.2
          (fun d => { d with herbs := d.herbs ++ [{ h with has_moved := true }] }) :=
      modifyCell_congr g pos.1 pos.2 dest _ _ hdc rfl
    have hg1src : getCell (modifyCell g pos.1 pos.2
        (fun d => { d with herbs := d.herbs ++ [{ h with has_moved := true }] })) r c =
        some u := by
      rw [getCell_modifyCell_ne _ _ _ _ _ _ (by
        intro he
        exact hne (by
          cases pos with
          | mk p1 p2 =>
            injection he with h1 h2
            rw [h1, h2]))]
      exact hsrc
    have hfilter : setAnimals true u
        ((getAnimals true u).filter
          (fun a => !((([] : List Nat) ++ [h.id]).contains a.id))) =
        { u with herbs := [] } := by
      rw [hga]
      simp [setAnimals]
    have hpassH : wanderPass M true r c g rng = .ok
        (modifyCell (modifyCell g pos.1 pos.2
            (fun d => { d with herbs := d.herbs ++ [{ h with has_moved := true }] }))
          r c (fun s => { s with herbs := [] }), r2) := by
      rw [wanderPass, hsrc]
      dsimp only
      rw [hga, wanderLoop, hmig]
      dsimp only
      rw [hadd, hconst]
      dsimp only
      rw [wanderLoop]
      dsimp only
      refine congrArg (fun x => Except.ok (x, r2)) ?_
      exact modifyCell_congr _ r c u _ _ hg1src hfilter
    rw [wanderAway, hpassH, except_ok_bind]
    refine wanderPass_empty M false r c _ r2 { u with herbs := [] } ?_ (by simp [getAnimals, hcarns])
    exact getCell_modifyCell_same _ r c u _ hg1src

/-- Witness for C3: on the concrete 1×2 grid, the single animal's
migration decision resolves to the neighbouring passable cell and the
move succeeds — appended to the destination with `has_moved` set,
removed from the source. -/
theorem C3_witness :
    ∃ dest, getCell g8 0 1 = some dest ∧
      dest.geo.can_animals_move_here = true ∧
      wanderAway M0 0 0 g8 rng8 = .ok
        (modifyCell (modifyCell g8 0 1
            (fun d => { d with herbs := d.herbs ++ [{ herb8 with has_moved := true }] }))
          0 0 (fun s => { s with herbs := [] }), { rng8 with idx := 2 }) := by
  have h := C3_amended_single_move M0 g8 0 0
    { loc := (1, 1), geo := .Lowland, herbs := [herb8], carns := [] } herb8 rng8
    (by decide) (by decide) (by decide)
  exact h.2.2 (0, 1) { rng8 with idx := 2 } (by rfl) (by decide)

theorem listModify_length (f : α → α) :
    ∀ (l : List α) (n : Nat), (listModify f n l).length = l.length := by
  intro l
  induction l with
  | nil => intro n; cases n <;> rfl
  | cons a rest ih =>
    intro n
    cases n with
    | zero => rfl
    | succ m => exact congrArg Nat.succ (ih m)

theorem modifyCell_length (g : Grid) (r c : Nat) (f : UnitArea → UnitArea) :
    (modifyCell g r c f).length = g.length :=
  listModify_length _ g r

theorem modifyCell_row_length (g : Grid) (r c : Nat) (f : UnitArea → UnitArea)
    (i : Nat) (row2 : List UnitArea)
    (h : (modifyCell g r c f).get? i = some row2) :
    ∃ row, g.get? i = some row ∧ row2.length = row.length := by
  by_cases hir : r = i
  · subst hir
    rw [modifyCell, listModify_get?_eq] at h
    cases hrow : g.get? r with
    | none => rw [hrow] at h; cases h
    | some row =>
      rw [hrow] at h
      injection h with h2
      exact ⟨row, rfl, by rw [← h2, listModify_length]⟩
  · rw [modifyCell, listModify_get?_ne _ _ _ _ hir] at h
    exact ⟨row2, h, rfl⟩

theorem sum_map_listModify (F : α → Nat) (f : α → α) :
    ∀ (l : List α) (n : Nat) (a : α), l.get? n = some a →
      ((listModify f n l).map F).sum + F a = (l.map F).sum + F (f a) := by
  intro l
  induction l with
  | nil => intro n a h; cases n <;> cases h
  | cons b rest ih =>
    intro n a h
    cases n with
    | zero =>
      injection h with h2
      subst h2
      show F (f b) + (rest.map F).sum + F b = F b + (rest.map F).sum + F (f b)
      omega
    | succ m =>
      have := ih m a h
      show F b + ((listModify f m rest).map F).sum + F a =
        F b + (rest.map F).sum + F (f a)
      omega

theorem sum_map_le_of_get? (F : α → Nat) :
    ∀ (l : List α) (n : Nat) (a : α), l.get? n = some a → F a ≤ (l.map F).sum := by
  intro l
  induction l with
  | nil => intro n a h; cases n <;> cases h
  | cons b rest ih =>
    intro n a h
    cases n with
    | zero =>
      injection h with h2
      subst h2
      show F b ≤ F b + (rest.map F).sum
      omega
    | succ m =>
      have := ih m a h
      show F a ≤ F b + (rest.map F).sum
      omega

theorem gridCount_modifyCell (g : Grid) (r c : Nat) (u : UnitArea)
    (f : UnitArea → UnitArea) (i : Nat) (h : getCell g r c = some u) :
    gridCount (modifyCell g r c f) i + cellCount u i =
      gridCount g i + cellCount (f u) i := by
  obtain ⟨row, hrow, hcell⟩ := getCell_row g r c u h
  have hinner := sum_map_listModify (fun v => cellCount v i) f row c u hcell
  have houter := sum_map_listModify
    (fun rw2 => (rw2.map (fun v => cellCount v i)).sum)
    (fun rw2 => listModify f c rw2) g r row hrow
  dsimp only at hinner houter
  rw [gridCount, gridCount, modifyCell]
  omega

theorem cellCount_le_gridCount (g : Grid) (r c : Nat) (u : UnitArea) (i : Nat)
    (h : getCell g r c = some u) : cellCount u i ≤ gridCount g i := by
  obtain ⟨row, hrow, hcell⟩ := getCell_row g r c u h
  have h1 := sum_map_le_of_get? (fun v => cellCount v i) row c u hcell
  have h2 := sum_map_le_of_get?
    (fun rw2 => (rw2.map (fun v => cellCount v i)).sum) g r row hrow
  dsimp only at h1 h2
  rw [gridCount]
  omega

theorem idCount_append (l1 l2 : List Fauna) (i : Nat) :
    idCount (l1 ++ l2) i = idCount l1 i + idCount l2 i :=
  List.countP_append _ _ _

theorem idCount_singleton (a : Fauna) (i : Nat) :
    idCount [a] i = if a.id = i then 1 else 0 := by
  by_cases h : a.id = i <;> simp [idCount, h]

theorem idCount_filter_ids (ids : List Nat) (i : Nat) (l : List Fauna) :
    idCount (l.filter (fun a => !(ids.contains a.id))) i =
      if i ∈ ids then 0 else idCount l i := by
  rw [idCount, List.countP_filter]
  by_cases hmem : i ∈ ids
  · rw [if_pos hmem]
    rw [List.countP_eq_zero]
    intro a _ hpa
    rw [Bool.and_eq_true, beq_iff_eq] at hpa
    rcases hpa with ⟨hai, hnc⟩
    rw [hai] at hnc
    simp [hmem] at hnc
  · rw [if_neg hmem, idCount]
    refine List.countP_congr ?_
    intro a _
    constructor
    · intro hpa
      rw [Bool.and_eq_true] at hpa
      exact hpa.1
    · intro hpa
      rw [Bool.and_eq_true]
      refine ⟨hpa, ?_⟩
      rw [beq_iff_eq] at hpa
      simp [hpa, hmem]

theorem pyIndex_some (len : Nat) (i : Int) (n : Nat) (h : pyIndex len i = some n) :
    (0 ≤ i ∧ i < (len : Int) ∧ (n : Int) = i) ∨
    (i < 0 ∧ -(len : Int) ≤ i ∧ (n : Int) = i + len) := by
  rw [pyIndex] at h
  by_cases h1 : 0 ≤ i ∧ i < (len : Int)
  · rw [if_pos h1] at h
    injection h with h3
    left
    refine ⟨h1.1, h1.2, ?_⟩
    omega
  · rw [if_neg h1] at h
    by_cases h2 : -(len : Int) ≤ i ∧ i < 0
    · rw [if_pos h2] at h
      injection h with h3
      right
      refine ⟨h2.2, h2.1, ?_⟩
      omega
    · rw [if_neg h2] at h
      cases h

theorem pyResolve_some (g : Grid) (R C : Int) (pos : Nat × Nat)
    (h : pyResolve g R C = some pos) :
    ∃ rowl, pyIndex g.length R = some pos.1 ∧ g.get? pos.1 = some rowl ∧
      pyIndex rowl.length C = some pos.2 := by
  rw [pyResolve] at h
  cases h1 : pyIndex g.length R with
  | none => rw [h1] at h; cases h
  | some ri =>
    rw [h1] at h
    dsimp only at h
    cases h2 : g.get? ri with
    | none => rw [h2] at h; cases h
    | some rowl =>
      rw [h2] at h
      dsimp only at h
      cases h3 : pyIndex rowl.length C with
      | none => rw [h3] at h; cases h
      | some ci =>
        rw [h3] at h
        cases pos with
        | mk p1 p2 =>
          injection h with h4
          injection h4 with e1 e2
          subst e1
          subst e2
          exact ⟨rowl, rfl, h2, h3⟩

theorem whereWillYouMove_cases (rng : Rng) (off : Int × Int) (r1 : Rng)
    (h : whereWillYouMove rng = (off, r1)) :
    off = (-1, 0) ∨ off = (1, 0) ∨ off = (0, -1) ∨ off = (0, 1) := by
  rw [whereWillYouMove] at h
  injection h with h1 h2
  split_ifs at h1
  · exact Or.inl h1.symm
  · exact Or.inr (Or.inl h1.symm)
  · exact Or.inr (Or.inr (Or.inl h1.symm))
  · exact Or.inr (Or.inr (Or.inr h1.symm))

theorem migrateTo_ok_some_strong (M : Model) (a : Fauna) (row col : Nat)
    (g : Grid) (rng : Rng) (pos : Nat × Nat) (r2 : Rng)
    (hrows : 2 ≤ g.length)
    (hcols : ∀ i rowl, g.get? i = some rowl → 2 ≤ rowl.length)
    (hm : migrateTo M a row col g rng = .ok (some pos, r2)) :
    (∃ dest, getCell g pos.1 pos.2 = some dest ∧
      dest.geo.can_animals_move_here = true) ∧ pos ≠ (row, col) := by
  rw [migrateTo] at hm
  rcases hw : willYouMove M a rng with ⟨will, r1⟩
  rw [hw] at hm
  dsimp only at hm
  cases will with
  | false => simp at hm
  | true =>
    rw [Bool.not_true, if_neg (by simp)] at hm
    rcases hoff : whereWillYouMove r1 with ⟨off, r3⟩
    rw [hoff] at hm
    dsimp only at hm
    cases hres : pyResolve g ((row : Int) + off.1) ((col : Int) + off.2) with
    | none => rw [hres] at hm; cases hm
    | some pos2 =>
      rw [hres] at hm
      dsimp only at hm
      cases hdc : getCell g pos2.1 pos2.2 with
      | none => rw [hdc] at hm; cases hm
      | some d =>
        rw [hdc] at hm
        dsimp only at hm
        by_cases hp : d.geo.can_animals_move_here
        · rw [if_pos hp] at hm
          injection hm with hm1
          injection hm1 with hma hmb
          injection hma with hpos
          subst hpos
          refine ⟨⟨d, hdc, hp⟩, ?_⟩
          obtain ⟨rowl, hpi1, hget, hpi2⟩ := pyResolve_some g _ _ pos2 hres
          have hcl := hcols pos2.1 rowl hget
          have hcase1 := pyIndex_some g.length _ pos2.1 hpi1
          have hcase2 := pyIndex_some rowl.length _ pos2.2 hpi2
          rcases whereWillYouMove_cases r1 off r3 hoff with ho | ho | ho | ho <;>
            subst ho <;>
            (intro heq
             have h1 : pos2.1 = row := congrArg Prod.fst heq
             have h2 : pos2.2 = col := congrArg Prod.snd heq
             dsimp only at hcase1 hcase2
             omega)
        · rw [if_neg hp] at hm
          injection hm with hm1
          injection hm1 with hma hmb
          cases hma

theorem addAnimalAt_ok (g : Grid) (r c : Nat) (b : Bool) (a : Fauna)
    (d : UnitArea) (hdc : getCell g r c = some d)
    (hp : d.geo.can_animals_move_here = true) :
    addAnimalAt g r c b a =
      .ok (modifyCell g r c (fun _ => setAnimals b d (getAnimals b d ++ [a]))) := by
  cases b with
  | true =>
    rw [addAnimalAt, hdc]
    dsimp only
    rw [addAnimal]
    simp [addHerb, hp, setAnimals, getAnimals]
  | false =>
    rw [addAnimalAt, hdc]
    dsimp only
    rw [addAnimal]
    simp [addCarn, hp, setAnimals, getAnimals]

theorem cellCount_setAnimals_append (b : Bool) (d : UnitArea) (a : Fauna) (i : Nat) :
    cellCount (setAnimals b d (getAnimals b d ++ [a])) i =
      cellCount d i + (if a.id = i then 1 else 0) := by
  cases b with
  | true =>
    show cellCount { d with herbs := d.herbs ++ [a] } i = _
    rw [cellCount, cellCount]
    show idCount (d.herbs ++ [a]) i + idCount d.carns i = _
    rw [idCount_append, idCount_singleton]
    omega
  | false =>
    show cellCount { d with carns := d.carns ++ [a] } i = _
    rw [cellCount, cellCount]
    show idCount d.herbs i + idCount (d.carns ++ [a]) i = _
    rw [idCount_append, idCount_singleton]
    omega

theorem gridCount_addAnimal (g : Grid) (r c : Nat) (b : Bool) (a : Fauna)
    (d : UnitArea) (i : Nat) (hdc : getCell g r c = some d) :
    gridCount (modifyCell g r c (fun _ => setAnimals b d (getAnimals b d ++ [a]))) i =
      gridCount g i + (if a.id = i then 1 else 0) := by
  have hmc := gridCount_modifyCell g r c d
    (fun _ => setAnimals b d (getAnimals b d ++ [a])) i hdc
  have hcc := cellCount_setAnimals_append b d a i
  dsimp only at hmc
  by_cases hid : a.id = i
  · rw [if_pos hid] at hcc ⊢
    omega
  · rw [if_neg hid] at hcc ⊢
    omega

theorem idCount_le_cellCount (b : Bool) (u : UnitArea) (i : Nat) :
    idCount (getAnimals b u) i ≤ cellCount u i := by
  cases b with
  | true => show idCount u.herbs i ≤ _; rw [cellCount]; omega
  | false => show idCount u.carns i ≤ _; rw [cellCount]; omega

theorem cellCount_setAnimals_filter (b : Bool) (u : UnitArea) (ids : List Nat) (i : Nat) :
    cellCount (setAnimals b u
      ((getAnimals b u).filter (fun a => !(ids.contains a.id)))) i +
      (if i ∈ ids then idCount (getAnimals b u) i else 0) = cellCount u i := by
  cases b with
  | true =>
    show cellCount { u with herbs := _ } i + _ = _
    rw [cellCount, cellCount]
    show idCount (u.herbs.filter _) i + idCount u.carns i + _ = _
    rw [idCount_filter_ids]
    show (if i ∈ ids then 0 else idCount u.herbs i) + _ + _ = _
    by_cases hmem : i ∈ ids <;> simp [hmem, getAnimals] <;> omega
  | false =>
    show cellCount { u with carns := _ } i + _ = _
    rw [cellCount, cellCount]
    show idCount u.herbs i + idCount (u.carns.filter _) i + _ = _
    rw [idCount_filter_ids]
    show idCount u.herbs i + (if i ∈ ids then 0 else idCount u.carns i) + _ = _
    by_cases hmem : i ∈ ids <;> simp [hmem, getAnimals] <;> omega

theorem wanderLoop_ok_counts (M : Model) (b : Bool) (r c : Nat) :
    ∀ (todo : List Fauna) (g : Grid) (rng : Rng) (acc : List Nat)
      (g1 : Grid) (r1 : Rng) (acc1 : List Nat),
      2 ≤ g.length →
      (∀ i rowl, g.get? i = some rowl → 2 ≤ rowl.length) →
      wanderLoop M b r c todo g rng acc = .ok (g1, r1, acc1) →
      ∃ newIds : List Nat,
        acc1 = acc ++ newIds ∧
        (∀ i, gridCount g1 i = gridCount g i + newIds.count i) ∧
        (∀ i, newIds.count i ≤ idCount todo i) ∧
        getCell g1 r c = getCell g r c ∧
        g1.length = g.length ∧
        (∀ i rowl, g1.get? i = some rowl → 2 ≤ rowl.length) := by
  intro todo
  induction todo with
  | nil =>
    intro g rng acc g1 r1 acc1 hrows hcols hw
    rw [wanderLoop] at hw
    injection hw with hw1
    injection hw1 with e1 hw2
    injection hw2 with e2 e3
    subst e1
    subst e3
    exact ⟨[], by simp, fun i => by simp, fun i => by simp [idCount], rfl, rfl, hcols⟩
  | cons a rest ih =>
    intro g rng acc g1 r1 acc1 hrows hcols hw
    rw [wanderLoop] at hw
    cases hm : migrateTo M a r c g rng with
    | error e => rw [hm] at hw; cases hw
    | ok pr =>
      rcases pr with ⟨opt, rM⟩
      rw [hm] at hw
      try dsimp only at hw
      cases opt with
      | none =>
        obtain ⟨newIds, ha, hcnt, hmult, hsrc, hlen, hcols1⟩ :=
          ih g rM acc g1 r1 acc1 hrows hcols hw
        refine ⟨newIds, ha, hcnt, ?_, hsrc, hlen, hcols1⟩
        intro i
        have hm2 := hmult i
        rw [idCount, List.countP_cons, ← idCount]
        by_cases hai : a.id = i <;> simp [hai] <;> omega
      | some pos =>
        obtain ⟨⟨dest, hdc, hp⟩, hne⟩ :=
          migrateTo_ok_some_strong M a r c g rng pos rM hrows hcols hm
        have hw2 : (match addAnimalAt g pos.1 pos.2 b { a with has_moved := true } with
            | .error e => .error e
            | .ok g2 => wanderLoop M b r c rest g2 rM (acc ++ [a.id])) =
            Except.ok (g1, r1, acc1) := hw
        rw [addAnimalAt_ok g pos.1 pos.2 b { a with has_moved := true } dest hdc hp] at hw2
        have hw3 : wanderLoop M b r c rest
            (modifyCell g pos.1 pos.2
              (fun _ => setAnimals b dest
                (getAnimals b dest ++ [{ a with has_moved := true }]))) rM
            (acc ++ [a.id]) = Except.ok (g1, r1, acc1) := hw2
        have hcols2 : ∀ i rowl,
            (modifyCell g pos.1 pos.2
              (fun _ => setAnimals b dest
                (getAnimals b dest ++ [{ a with has_moved := true }]))).get? i =
              some rowl → 2 ≤ rowl.length := by
          intro i rowl hg
          obtain ⟨row0, hrow0, hleq⟩ := modifyCell_row_length g pos.1 pos.2 _ i rowl hg
          rw [hleq]
          exact hcols i row0 hrow0
        obtain ⟨newIds2, ha, hcnt, hmult, hsrc, hlen, hcols1⟩ :=
          ih _ rM (acc ++ [a.id]) g1 r1 acc1
            (by rw [modifyCell_length]; exact hrows) hcols2 hw3
        have hnesym : (r, c) ≠ (pos.1, pos.2) := by
          intro he
          apply hne
          rw [he]
        refine ⟨a.id :: newIds2, ?_, ?_, ?_, ?_, ?_, hcols1⟩
        · rw [List.append_cons]
          exact ha
        · intro i
          have h1 := hcnt i
          have h2 := gridCount_addAnimal g pos.1 pos.2 b
            { a with has_moved := true } dest i hdc
          dsimp only at h2
          rw [List.count_cons]
          by_cases hai : a.id = i
          · subst hai
            rw [if_pos rfl] at h2
            simp only [beq_self_eq_true, if_true]
            omega
          · rw [if_neg hai] at h2
            have hbeq : (a.id == i) = false := by
              simp [hai]
            simp only [hbeq, Bool.false_eq_true, if_false]
            omega
        · intro i
          have hm2 := hmult i
          rw [List.count_cons, idCount, List.countP_cons, ← idCount]
          by_cases hai : a.id = i <;> simp [hai] <;> omega
        · rw [hsrc]
          exact getCell_modifyCell_ne g pos.1 pos.2 r c _ hnesym
        · rw [hlen, modifyCell_length]

theorem wanderPass_ok_counts (M : Model) (b : Bool) (r c : Nat) (g : Grid)
    (rng : Rng) (g2 : Grid) (r2 : Rng)
    (hrows : 2 ≤ g.length)
    (hcols : ∀ i rowl, g.get? i = some rowl → 2 ≤ rowl.length)
    (huniq : ∀ i, gridCount g i ≤ 1)
    (hok : wanderPass M b r c g rng = .ok (g2, r2)) :
    (∀ i, gridCount g2 i = gridCount g i) ∧
    g2.length = g.length ∧
    (∀ i rowl, g2.get? i = some rowl → 2 ≤ rowl.length) := by
  rw [wanderPass] at hok
  cases hsrc : getCell g r c with
  | none =>
    rw [hsrc] at hok
    injection hok with h1
    injection h1 with e1 e2
    subst e1
    exact ⟨fun i => rfl, rfl, hcols⟩
  | some u =>
    rw [hsrc] at hok
    have hok1 : (match wanderLoop M b r c (getAnimals b u) g rng [] with
        | Except.error e => Except.error e
        | Except.ok (g1, r1, ids) =>
          Except.ok (modifyCell g1 r c
            (fun u2 => setAnimals b u2
              ((getAnimals b u2).filter (fun x => !(ids.contains x.id)))), r1)) =
        Except.ok (g2, r2) := hok
    cases hloop : wanderLoop M b r c (getAnimals b u) g rng [] with
    | error e =>
      rw [hloop] at hok1
      injection hok1
    | ok tri =>
      rcases tri with ⟨g1, r1, ids⟩
      rw [hloop] at hok1
      have hok2 : (Except.ok (modifyCell g1 r c
          (fun u2 => setAnimals b u2
            ((getAnimals b u2).filter (fun x => !(ids.contains x.id)))), r1) :
          Except String (Grid × Rng))
          = Except.ok (g2, r2) := hok1
      injection hok2 with h1
      injection h1 with e1 e2
      obtain ⟨newIds, haeq, hcnt, hmult, hsrc1, hlen1, hcols1⟩ :=
        wanderLoop_ok_counts M b r c (getAnimals b u) g rng [] g1 r1 ids
          hrows hcols hloop
      have hids : ids = newIds := by simpa using haeq
      subst hids
      subst e1
      have hsrcg1 : getCell g1 r c = some u := by rw [hsrc1]; exact hsrc
      refine ⟨?_, ?_, ?_⟩
      · intro i
        have hmodc := gridCount_modifyCell g1 r c u
          (fun u2 => setAnimals b u2
            ((getAnimals b u2).filter (fun x => !(ids.contains x.id)))) i hsrcg1
        dsimp only at hmodc
        have hfilt := cellCount_setAnimals_filter b u ids i
        have hle1 := idCount_le_cellCount b u i
        have hle2 := cellCount_le_gridCount g r c u i hsrc
        have hu := huniq i
        have hcg1 := hcnt i
        by_cases hmem : i ∈ ids
        · rw [if_pos hmem] at hfilt
          have hpos : 0 < ids.count i := List.count_pos_iff.2 hmem
          have hmu := hmult i
          omega
        · rw [if_neg hmem] at hfilt
          have hz : ids.count i = 0 := List.count_eq_zero_of_not_mem hmem
          omega
      · rw [modifyCell_length, hlen1]
      · intro i rowl hg
        obtain ⟨row0, hrow0, hleq⟩ := modifyCell_row_length g1 r c _ i rowl hg
        rw [hleq]
        exact hcols1 i row0 hrow0

/-- C8, amended.  After a completed `wander_away` call on any cell of a
grid with at least two rows and two columns per row (so Python
wrap-around indexing cannot resolve a neighbour offset back to the
source cell), each animal identity occupies exactly as many cells as
before: the pass preserves the grid-wide occurrence count of every
identity, and with all identities unique beforehand each animal is held
by exactly one cell afterwards.  (Within the pass the transfer is not
atomic — see the counterexample.) -/
theorem C8_amended_wander_preserves_ownership (M : Model) (r c : Nat) (g : Grid)
    (rng : Rng) (g2 : Grid) (r2 : Rng)
    (hrows : 2 ≤ g.length)
    (hcols : ∀ i rowl, g.get? i = some rowl → 2 ≤ rowl.length)
    (huniq : ∀ i, gridCount g i ≤ 1)
    (hok : wanderAway M r c g rng = .ok (g2, r2)) :
    (∀ i, gridCount g2 i = gridCount g i) ∧ (∀ i, gridCount g2 i ≤ 1) := by
  rw [wanderAway] at hok
  cases hp1 : wanderPass M true r c g rng with
  | error e => rw [hp1] at hok; cases hok
  | ok pr =>
    rcases pr with ⟨gm, rm⟩
    rw [hp1] at hok
    have hok2 : wanderPass M false r c gm rm = .ok (g2, r2) := hok
    obtain ⟨hc1, hl1, hcol1⟩ :=
      wanderPass_ok_counts M true r c g rng gm rm hrows hcols huniq hp1
    have huniq2 : ∀ i, gridCount gm i ≤ 1 := fun i => by
      rw [hc1 i]; exact huniq i
    obtain ⟨hc2, hl2, hcol2⟩ :=
      wanderPass_ok_counts M false r c gm rm g2 r2
        (by rw [hl1]; exact hrows) hcol1 huniq2 hok2
    refine ⟨fun i => by rw [hc2 i, hc1 i], fun i => by rw [hc2 i, hc1 i]; exact huniq i⟩

/-- Witness for C8 on the concrete 2×2 grid: the pass moves the animal
one cell right and its grid-wide occurrence count is unchanged (still
exactly one cell holds it). -/
theorem C8_witness :
    gridCount gw8after 1 = gridCount gw8 1 ∧ gridCount gw8after 1 ≤ 1 := by
  have hok : wanderAway M0 0 0 gw8 rng8 = .ok (gw8after, { rng8 with idx := 2 }) := by
    rfl
  have hcols : ∀ i rowl, gw8.get? i = some rowl → 2 ≤ rowl.length := by
    intro i rowl hr
    have hlt : i < 2 := by
      by_contra hge
      have hnone : gw8.get? i = none := by
        apply List.get?_eq_none.2
        have hlen2 : gw8.length = 2 := rfl
        omega
      rw [hnone] at hr
      cases hr
    interval_cases i <;> (injection hr with hr2; subst hr2; decide)
  have huniq : ∀ i, gridCount gw8 i ≤ 1 := by
    intro i
    by_cases h1 : 1 = i
    · subst h1; decide
    · have hz : gridCount gw8 i = 0 := by
        simp only [gridCount, gw8, cellCount, idCount, herb8, List.map_cons,
          List.map_nil, List.countP_cons, List.countP_nil, List.sum_cons,
          List.sum_nil]
        simp [h1]
      omega
  have h := C8_amended_wander_preserves_ownership M0 0 0 gw8 rng8 gw8after
    { rng8 with idx := 2 } (by decide) hcols huniq hok
  exact ⟨h.1 1, h.2 1⟩
